import Mathlib

/-!
Verification of the `kicad-auto-silkscreen` placement engine
(`src/kicad_auto_silkscreen/kicad_auto_silkscreen.py`) against its
natural-language specification.

The Python source manipulates KiCad board objects through the `pcbnew`
geometry adapter.  The shallow embedding below models:

* coordinates as `Int` (pcbnew `VECTOR2I`, board-native nanometre units,
  32-bit range enforced by the SWIG wrapper, which raises `OverflowError`
  outside that range);
* `BOX2I` as origin (top-left) plus size, with the C++ accessor semantics
  (`GetCenter` uses C integer division, `SetSize` keeps the origin);
* millimetre quantities (`config` values, `ToMM`/`FromMM`, the mm-space
  search loops and the scipy objective) as exact rationals — the ideal
  real-number reading of the source's float arithmetic;
* square-root comparisons (`math.hypot`, `np.hypot`) exactly: a computable
  decision procedure `sqrtLtB` decides `√A < m + √B` over ℚ and is proven
  correct against `Real.sqrt`;
* the label-position mutation (`SetPosition`/`GetPosition`) as an explicit
  position state threaded through the search, so the source's
  mutate-check-restore discipline is represented faithfully, including the
  sharing between the moved label and the footprint list used for checks.
-/

set_option allowUnsafeReducibility true
set_option maxRecDepth 100000
set_option maxHeartbeats 4000000

attribute [local semireducible] Rat.add Rat.mul Rat.sub Rat.div Rat.inv Rat.neg

namespace AutoSilk

/-- A 2-D integer vector, modelling pcbnew's `VECTOR2I` (board-native units). -/
structure Vec where
  x : Int
  y : Int
  deriving DecidableEq, Repr

/-- An axis-aligned box, modelling pcbnew's `BOX2I`: origin `pos` (top-left
corner; y grows downward) and `size`. -/
structure Box where
  pos : Vec
  size : Vec
  deriving DecidableEq, Repr

def Box.GetLeft (b : Box) : Int := b.pos.x

def Box.GetTop (b : Box) : Int := b.pos.y

def Box.GetRight (b : Box) : Int := b.pos.x + b.size.x

def Box.GetBottom (b : Box) : Int := b.pos.y + b.size.y

def Box.GetWidth (b : Box) : Int := b.size.x

def Box.GetHeight (b : Box) : Int := b.size.y

/-- `BOX2I::GetCenter`: origin plus half the size, with C++ (truncating)
integer division. -/
def Box.GetCenter (b : Box) : Vec :=
  ⟨b.pos.x + Int.tdiv b.size.x 2, b.pos.y + Int.tdiv b.size.y 2⟩

/-- `BOX2I::Intersects` (wxWidgets logic; boxes here always have
non-negative sizes, so normalization is the identity). Touching edges
count as intersecting. -/
def Box.Intersects (a b : Box) : Bool :=
  decide (b.GetLeft ≤ a.GetRight) && decide (a.GetLeft ≤ b.GetRight) &&
  decide (b.GetTop ≤ a.GetBottom) && decide (a.GetTop ≤ b.GetBottom)

/-- `BOX2I::SetSize`: replaces the size, keeping the origin (top-left
corner) fixed. -/
def Box.SetSize (b : Box) (w h : Int) : Box :=
  ⟨b.pos, ⟨w, h⟩⟩

/-- Floor of a rational, computed from its fields (so the kernel can
evaluate it): the denominator is positive, hence `Int` division (which
rounds toward negative infinity) is the mathematical floor. -/
def ratFloor (q : ℚ) : Int := q.num / (q.den : Int)

/-- Ceiling of a rational, via `ratFloor`. -/
def ratCeil (q : ℚ) : Int := -ratFloor (-q)

/-- Python `int()`: truncation toward zero. -/
def pyInt (q : ℚ) : Int := if 0 ≤ q then ratFloor q else -ratFloor (-q)

/-- KiCad `KiROUND`: round half away from zero. -/
def kiround (q : ℚ) : Int := if 0 ≤ q then ratFloor (q + 1/2) else -ratFloor (-q + 1/2)

/-- `pcbnew.FromMM`: millimetres to integer board units (1 mm = 10^6 units).
The Python-side product is an unbounded Python int, so no overflow here. -/
def fromMM (q : ℚ) : Int := kiround (q * 1000000)

/-- `pcbnew.ToMM`: integer board units to millimetres. -/
def toMM (i : Int) : ℚ := (i : ℚ) / 1000000

def coordMax : Int := 2147483647

def coordMin : Int := -2147483648

/-- Constructing a `VECTOR2I` from Python ints: the SWIG wrapper raises
`OverflowError` when a coordinate does not fit in 32 bits. `none` models
the raised exception. -/
def mkVec32 (x y : Int) : Option Vec :=
  if coordMin ≤ x ∧ x ≤ coordMax ∧ coordMin ≤ y ∧ y ≤ coordMax then some ⟨x, y⟩ else none

/-- Exact decision of `√A < m + √B` for rationals `A, B ≥ 0`.
This is the comparison underlying `np.hypot(dx, dy) < max_d + math.hypot(w, h)`
in `filter_distance`, with `A = dx² + dy²` and `B = w² + h²`. -/
def sqrtLtB (A m B : ℚ) : Bool :=
  let t := A - m * m - B
  if 0 ≤ m then
    decide (t < 0) || (decide (0 ≤ t) && decide (t * t < 4 * (m * m) * B))
  else
    decide (m * m < B) && decide (t < 0) && decide (4 * (m * m) * B < t * t)

/-- Squared Euclidean distance between two integer points, as a rational. -/
def distSq (c v : Vec) : ℚ :=
  ((v.x - c.x : Int) : ℚ) * ((v.x - c.x : Int) : ℚ) +
  ((v.y - c.y : Int) : ℚ) * ((v.y - c.y : Int) : ℚ)

/-- Squared diagonal (`math.hypot(width, height)` squared) of a box. -/
def diagSq (b : Box) : ℚ :=
  ((b.GetWidth : ℚ)) * ((b.GetWidth : ℚ)) + ((b.GetHeight : ℚ)) * ((b.GetHeight : ℚ))

/-- `filter_distance` (source lines 35-59): precompute each candidate's
bounding-box center and diagonal, build the keep mask
`dist < max_d + diagonal`, and select by mask (preserving order).
`bbOf` abstracts `obj.GetBoundingBox()` over the various item types. -/
def filter_distance {α : Type} (bbOf : α → Box) (item_center : Vec) (max_d : ℚ)
    (list_items : List α) : List α :=
  let keep_mask : List Bool := list_items.map (fun obj =>
    let bb := bbOf obj
    sqrtLtB (distSq item_center bb.GetCenter) max_d (diagSq bb))
  ((list_items.zip keep_mask).filter (fun p => p.2)).map (fun p => p.1)

/-- The ideal (real-valued) keep condition of the Spatial Pruner: Euclidean
distance from the query center to the candidate's bounding-box center is
strictly below `r` plus the candidate's bounding-box diagonal. -/
def keepR {α : Type} (bbOf : α → Box) (c : Vec) (r : ℝ) (o : α) : Prop :=
  Real.sqrt ((distSq c (bbOf o).GetCenter : ℚ) : ℝ) <
    r + Real.sqrt ((diagSq (bbOf o) : ℚ) : ℝ)

/-- The pruning step as a relation over the exact real radius `r`:
`PrunedRel bbOf c r xs ys` holds iff `ys` is the sublist of `xs` keeping
exactly the elements satisfying the real keep condition `keepR`. Used to
state the orchestrator semantics, whose radius is an irrational sum of
square roots. -/
def PrunedRel {α : Type} (bbOf : α → Box) (c : Vec) (r : ℝ) :
    List α → List α → Prop
  | [], ys => ys = []
  | x :: xs, ys =>
      (keepR bbOf c r x ∧ ∃ ys', ys = x :: ys' ∧ PrunedRel bbOf c r xs ys') ∨
      (¬ keepR bbOf c r x ∧ PrunedRel bbOf c r xs ys)

/-- Board layers relevant to the engine. `other` stands for any further
KiCad layer (fabrication, copper, ...). -/
inductive Layer
  | fSilk
  | bSilk
  | fMask
  | bMask
  | other
  deriving DecidableEq, Repr

/-- Static data of a text item (`fp.Reference()` / `fp.Value()`): bounding-box
size, layer and visibility. The mutable position lives in `PosState`.
Geometry-adapter model: the text's bounding box is centred on its anchor
position. -/
structure TextData where
  size : Vec
  layer : Layer
  visible : Bool
  deriving DecidableEq, Repr

def TextData.IsOnLayer (t : TextData) (l : Layer) : Bool := t.layer = l

/-- `is_silkscreen` (source lines 25-32) for text items, which have an
`IsVisible` attribute. -/
def is_silkscreen_text (t : TextData) : Bool :=
  (t.IsOnLayer .bSilk || t.IsOnLayer .fSilk) && t.visible

/-- A footprint: bounding box (`GetBoundingBox(False, False)`, text excluded,
hence static), its two labels' static data, per-side courtyard polygon
(modelled as an optional box; `none` is an empty courtyard), selection flag. -/
structure Fp where
  bb : Box
  ref : TextData
  val : TextData
  courtF : Option Box
  courtB : Option Box
  selected : Bool
  deriving DecidableEq, Repr

instance : Inhabited Fp :=
  ⟨⟨⟨⟨0, 0⟩, ⟨0, 0⟩⟩, ⟨⟨0, 0⟩, .other, false⟩, ⟨⟨0, 0⟩, .other, false⟩, none, none, false⟩⟩

instance {ε α : Type} [DecidableEq ε] [DecidableEq α] : DecidableEq (Except ε α) :=
  fun a b =>
    match a, b with
    | .error e, .error f =>
        if h : e = f then .isTrue (by rw [h]) else .isFalse (fun hc => h (Except.error.inj hc))
    | .error _, .ok _ => .isFalse (fun hc => Except.noConfusion hc)
    | .ok _, .error _ => .isFalse (fun hc => Except.noConfusion hc)
    | .ok x, .ok y =>
        if h : x = y then .isTrue (by rw [h]) else .isFalse (fun hc => h (Except.ok.inj hc))

/-- `FOOTPRINT::GetCourtyard(layer)`: front courtyard for front layers,
back courtyard for back layers. The engine only queries it at the moved
label's (silkscreen) layer. -/
def Fp.GetCourtyard (fp : Fp) (l : Layer) : Option Box :=
  if l = .bSilk then fp.courtB else fp.courtF

/-- A track: `isVia` models `isinstance(trk, pcbnew.PCB_VIA)`; `topFCu` and
`botBCu` model `TopLayer() == F_Cu` and `BottomLayer() == B_Cu`. -/
structure Via where
  isVia : Bool
  topFCu : Bool
  botBCu : Bool
  bb : Box
  deriving DecidableEq, Repr

structure Pad where
  hasHole : Bool
  bb : Box
  deriving DecidableEq, Repr

/-- A board drawing (`GetDrawings()` item): single layer, bounding box and
effective collision shape (modelled as an optional box). `PCB_SHAPE` has
no `IsVisible` attribute, so `is_silkscreen` treats drawings as visible. -/
structure Dwg where
  layer : Layer
  bb : Box
  shape : Option Box
  deriving DecidableEq, Repr

def Dwg.IsOnLayer (d : Dwg) (l : Layer) : Bool := d.layer = l

/-- `is_silkscreen` for drawings (no `IsVisible` attribute). -/
def is_silkscreen_dwg (d : Dwg) : Bool :=
  d.IsOnLayer .bSilk || d.IsOnLayer .fSilk

/-- The board: static item pools plus the board-outline containment
predicate (`SHAPE_POLY_SET.Contains` for `GetBoardPolygonOutlines`,
a black-box geometry primitive). -/
structure Board where
  fps : List Fp
  tracks : List Via
  pads : List Pad
  dwgs : List Dwg
  outline : Vec → Bool

/-- Mutable label positions: one (reference position, value position) pair
per footprint, indexed like `Board.fps`. -/
abbrev PosState := List (Vec × Vec)

def getRV (st : PosState) (i : Nat) : Vec × Vec := st.getD i (⟨0, 0⟩, ⟨0, 0⟩)

def getPos (st : PosState) (i : Nat) (isRef : Bool) : Vec :=
  if isRef then (getRV st i).1 else (getRV st i).2

def setPos (st : PosState) (i : Nat) (isRef : Bool) (v : Vec) : PosState :=
  st.set i (if isRef then (v, (getRV st i).2) else ((getRV st i).1, v))

/-- Geometry-adapter model of `text.GetBoundingBox()`: a box of the text's
size centred on its anchor position (C integer division for odd sizes). -/
def labelBB (pos : Vec) (t : TextData) : Box :=
  ⟨⟨pos.x - Int.tdiv t.size.x 2, pos.y - Int.tdiv t.size.y 2⟩, t.size⟩

/-- Geometry-adapter model of `text.GetEffectiveShape()`: the text's
(undeflated) bounding box. -/
def labelShape (pos : Vec) (t : TextData) : Option Box :=
  some (labelBB pos t)

/-- `SHAPE.Collide` between two optional boxes (an absent courtyard or
shape collides with nothing). -/
def collideOpt : Option Box → Option Box → Bool
  | some a, some b => a.Intersects b
  | _, _ => false

/-- `bb_in_shape_poly_set` (source lines 62-78): tests the four corners and
the center of the box against the polygon. -/
def bb_in_shape_poly_set (bb : Box) (poly : Vec → Bool) (all_in : Bool) : Bool :=
  if all_in then
    poly ⟨bb.GetLeft, bb.GetTop⟩ && poly ⟨bb.GetRight, bb.GetTop⟩ &&
    poly ⟨bb.GetLeft, bb.GetBottom⟩ && poly ⟨bb.GetRight, bb.GetBottom⟩ &&
    poly ⟨bb.GetCenter.x, bb.GetCenter.y⟩
  else
    poly ⟨bb.GetLeft, bb.GetTop⟩ || poly ⟨bb.GetRight, bb.GetTop⟩ ||
    poly ⟨bb.GetLeft, bb.GetBottom⟩ || poly ⟨bb.GetRight, bb.GetBottom⟩ ||
    poly ⟨bb.GetCenter.x, bb.GetCenter.y⟩

/-- The configuration value object (`SilkscreenConfig`, source lines 13-22).
Millimetre quantities are exact rationals. -/
structure SilkscreenConfig where
  max_allowed_distance : ℚ := 5
  method : String := "anneal"
  step_size : ℚ := 1/10
  only_process_selection : Bool := false
  ignore_vias : Bool := true
  deflate_factor : ℚ := 1
  maxiter : Nat := 100
  debug : Bool := true

/-- The static text data of the label being placed. -/
def itemData (b : Board) (fpIdx : Nat) (isRef : Bool) : TextData :=
  let fp := b.fps.getD fpIdx default
  if isRef then fp.ref else fp.val

/-- `bb_item` after `SetSize(int(w * deflate), int(h * deflate))`
(source lines 335-339): the size shrinks, the origin stays. -/
def deflateBB (bb : Box) (f : ℚ) : Box :=
  bb.SetSize (pyInt ((bb.GetWidth : ℚ) * f)) (pyInt ((bb.GetHeight : ℚ) * f))

/-- The reference-label clause of the module loop in `is_position_valid`
(source lines 348-355): `((is_reference and fp != fp2) or not is_reference)
and is_silkscreen(ref_fp) and ref_fp.IsOnLayer(item.GetLayer()) and
bb_item.Intersects(ref_fp.GetBoundingBox())`. Footprint identity is the
index into `Board.fps`. -/
def refLabelConflict (b : Board) (st : PosState) (fpIdx : Nat) (isRef : Bool)
    (bbItem : Box) (itemLayer : Layer) (i : Nat) : Bool :=
  let fp2 := b.fps.getD i default
  ((isRef && decide (fpIdx ≠ i)) || !isRef) && is_silkscreen_text fp2.ref &&
    fp2.ref.IsOnLayer itemLayer && bbItem.Intersects (labelBB (getRV st i).1 fp2.ref)

/-- The value-label clause of the module loop (source lines 356-363). -/
def valueLabelConflict (b : Board) (st : PosState) (fpIdx : Nat) (isRef : Bool)
    (bbItem : Box) (itemLayer : Layer) (i : Nat) : Bool :=
  let fp2 := b.fps.getD i default
  is_silkscreen_text fp2.val && ((!isRef && decide (fpIdx ≠ i)) || isRef) &&
    fp2.val.IsOnLayer itemLayer && bbItem.Intersects (labelBB (getRV st i).2 fp2.val)

/-- One iteration of the module loop: no label conflict and no courtyard
collision. -/
def moduleOK (b : Board) (st : PosState) (fpIdx : Nat) (isRef : Bool)
    (bbItem : Box) (itemShape : Option Box) (itemLayer : Layer) (i : Nat) : Bool :=
  !refLabelConflict b st fpIdx isRef bbItem itemLayer i &&
  !valueLabelConflict b st fpIdx isRef bbItem itemLayer i &&
  !collideOpt ((b.fps.getD i default).GetCourtyard itemLayer) itemShape

/-- One iteration of the via loop (source lines 368-373). -/
def viaOK (bbItem : Box) (itemLayer : Layer) (via : Via) : Bool :=
  !(((via.topFCu && decide (itemLayer = .fSilk)) ||
     (via.botBCu && decide (itemLayer = .bSilk))) && bbItem.Intersects via.bb)

/-- One iteration of the through-hole pad loop (source lines 375-377). -/
def padOK (bbItem : Box) (pad : Pad) : Bool :=
  !(bbItem.Intersects pad.bb)

/-- One iteration of the mask loop (source lines 379-384). -/
def maskOK (itemShape : Option Box) (td : TextData) (mask : Dwg) : Bool :=
  !(((mask.IsOnLayer .fMask && td.IsOnLayer .fSilk) ||
     (mask.IsOnLayer .bMask && td.IsOnLayer .bSilk)) && collideOpt mask.shape itemShape)

/-- One iteration of the drawing loop (source lines 386-390). -/
def dwgOK (itemShape : Option Box) (itemLayer : Layer) (d : Dwg) : Bool :=
  !(d.IsOnLayer itemLayer && collideOpt d.shape itemShape)

/-- `is_position_valid` (source lines 322-392). The placed label is
`(fpIdx, isRef)` at its current position in `st`; `moduleIds` indexes the
(pruned) footprint list, so the moved label is shared with the obstacle
list exactly as the live objects are in the source. -/
def is_position_valid (cfg : SilkscreenConfig) (b : Board) (st : PosState)
    (fpIdx : Nat) (isRef : Bool) (moduleIds : List Nat) (board_edge : Vec → Bool)
    (vias : List Via) (tht_pads : List Pad) (masks : List Dwg)
    (drawings : List Dwg) : Bool :=
  let td := itemData b fpIdx isRef
  let ipos := getPos st fpIdx isRef
  let bb_item := deflateBB (labelBB ipos td) cfg.deflate_factor
  if !bb_in_shape_poly_set bb_item board_edge true then false
  else
    let item_shape := labelShape ipos td
    moduleIds.all (fun i => moduleOK b st fpIdx isRef bb_item item_shape td.layer i) &&
    vias.all (fun via => viaOK bb_item td.layer via) &&
    tht_pads.all (fun pad => padOK bb_item pad) &&
    masks.all (fun mask => maskOK item_shape td mask) &&
    drawings.all (fun d => dwgOK item_shape td.layer d)

/-- `np.arange(0, stop, step)` for positive `step`: the multiples
`k * step` for `0 ≤ k < ⌈stop / step⌉`. -/
def arange (stop step : ℚ) : List ℚ :=
  if 0 < step then (List.range (ratCeil (stop / step)).toNat).map (fun k => (k : ℚ) * step)
  else []

/-- The eight symmetric candidate offsets tried at a `(i, j)` pair
(source lines 279-288), in source order. -/
def ringOffsets (i j : ℚ) : List (ℚ × ℚ) :=
  [(-j, -i), (j, -i), (-j, i), (j, i), (-i, -j), (i, -j), (-i, j), (i, j)]

/-- The full candidate-offset sequence of the grid search, in trial order
(source lines 276-288): `i` over `arange(0, max_dist + step, step)`, `j`
over `arange(0, max_width/2 + i + step, step)`, then the eight offsets. -/
def brute_candidates (max_dist_mm step_mm max_width_mm : ℚ) : List (ℚ × ℚ) :=
  (arange (max_dist_mm + step_mm) step_mm).flatMap (fun i =>
    (arange (max_width_mm / 2 + i + step_mm) step_mm).flatMap (fun j =>
      ringOffsets i j))

/-- The grid search's inner loop over the flattened candidate sequence:
set the label to each candidate, test validity, stop at the first
acceptance. `VECTOR2I` construction outside any `try` block, so an
overflowing candidate raises (`Except.error`). -/
def searchLoop (cfg : SilkscreenConfig) (b : Board) (fpIdx : Nat) (isRef : Bool)
    (moduleIds : List Nat) (board_edge : Vec → Bool) (vias : List Via)
    (tht_pads : List Pad) (masks : List Dwg) (dwgs : List Dwg) (cx cy : ℚ) :
    List (ℚ × ℚ) → PosState → Except Unit (Option Vec × PosState)
  | [], st => .ok (none, st)
  | (dx, dy) :: rest, st =>
      match mkVec32 (fromMM (cx + dx)) (fromMM (cy + dy)) with
      | none => .error ()
      | some v =>
          let st' := setPos st fpIdx isRef v
          if is_position_valid cfg b st' fpIdx isRef moduleIds board_edge vias
              tht_pads masks dwgs then
            .ok (some v, st')
          else
            searchLoop cfg b fpIdx isRef moduleIds board_edge vias tht_pads masks
              dwgs cx cy rest st'

/-- `place_field_brute_force` (source lines 255-320). Returns whether a
valid position was found, together with the final position state; an
uncaught coordinate overflow is `Except.error`. -/
def place_field_brute_force (cfg : SilkscreenConfig) (b : Board) (st : PosState)
    (fpIdx : Nat) (isRef : Bool) (moduleIds : List Nat) (board_edge : Vec → Bool)
    (vias : List Via) (tht_pads : List Pad) (masks : List Dwg) (dwgs : List Dwg) :
    Except Unit (Bool × PosState) :=
  let initial_pos := getPos st fpIdx isRef
  let fp := b.fps.getD fpIdx default
  let cx := toMM fp.bb.GetCenter.x
  let cy := toMM fp.bb.GetCenter.y
  let cands := brute_candidates cfg.max_allowed_distance cfg.step_size
    (toMM fp.bb.GetWidth)
  match searchLoop cfg b fpIdx isRef moduleIds board_edge vias tht_pads masks
      dwgs cx cy cands st with
  | .error e => .error e
  | .ok (some v, st') => .ok (true, setPos st' fpIdx isRef v)
  | .ok (none, st') => .ok (false, setPos st' fpIdx isRef initial_pos)

/-- An objective value `pen + √dsq` of the annealing objective, represented
symbolically: `pen` is the infeasibility penalty (`0` or `10^6`), `dsq` the
squared mm-distance to the footprint center. -/
structure ObjVal where
  pen : ℚ
  dsq : ℚ
  deriving DecidableEq, Repr

/-- The real number an `ObjVal` stands for. -/
def ObjVal.Denotes (v : ObjVal) (x : ℝ) : Prop :=
  x = (v.pen : ℝ) + Real.sqrt ((v.dsq : ℚ) : ℝ)

/-- Exact comparison of two objective values:
`pen₁ + √d₁ < pen₂ + √d₂ ↔ √d₁ < (pen₂ - pen₁) + √d₂`. -/
def ObjVal.ltB (v w : ObjVal) : Bool := sqrtLtB v.dsq (w.pen - v.pen) w.dsq

/-- `INF_ERROR_VALUE` (source line 10). -/
def INF_ERROR_VALUE : ℚ := 1000000

/-- The annealing `objective` (source lines 206-236): temporarily move the
label to the candidate mm-point, penalize overflow and outline escape
with `INF_ERROR_VALUE`, otherwise score by validity and distance to the
footprint center; always restore the previous position. -/
def objective (cfg : SilkscreenConfig) (b : Board) (fpIdx : Nat) (isRef : Bool)
    (moduleIds : List Nat) (board_edge : Vec → Bool) (vias : List Via)
    (tht_pads : List Pad) (masks : List Dwg) (dwgs : List Dwg)
    (center_x_mm center_y_mm : ℚ) (pos : ℚ × ℚ) (st : PosState) :
    ObjVal × PosState :=
  let candidate_x := fromMM pos.1
  let candidate_y := fromMM pos.2
  let prev_pos := getPos st fpIdx isRef
  match mkVec32 candidate_x candidate_y with
  | none =>
      (⟨INF_ERROR_VALUE, 0⟩, setPos st fpIdx isRef prev_pos)
  | some v =>
      let st1 := setPos st fpIdx isRef v
      let td := itemData b fpIdx isRef
      if !bb_in_shape_poly_set (labelBB v td) board_edge true then
        (⟨INF_ERROR_VALUE, 0⟩, setPos st1 fpIdx isRef prev_pos)
      else
        let valid := is_position_valid cfg b st1 fpIdx isRef moduleIds board_edge
          vias tht_pads masks dwgs
        let st2 := setPos st1 fpIdx isRef prev_pos
        let dsq := (pos.1 - center_x_mm) * (pos.1 - center_x_mm) +
          (pos.2 - center_y_mm) * (pos.2 - center_y_mm)
        if valid then (⟨0, dsq⟩, st2) else (⟨INF_ERROR_VALUE, dsq⟩, st2)

/-- Evaluate the objective on a sequence of trial points (the trace of
`dual_annealing`'s evaluations), threading the position state. -/
def evalTrials (cfg : SilkscreenConfig) (b : Board) (fpIdx : Nat) (isRef : Bool)
    (moduleIds : List Nat) (board_edge : Vec → Bool) (vias : List Via)
    (tht_pads : List Pad) (masks : List Dwg) (dwgs : List Dwg)
    (center_x_mm center_y_mm : ℚ) :
    List (ℚ × ℚ) → PosState → List ((ℚ × ℚ) × ObjVal) × PosState
  | [], st => ([], st)
  | p :: rest, st =>
      let r1 := objective cfg b fpIdx isRef moduleIds board_edge vias tht_pads
        masks dwgs center_x_mm center_y_mm p st
      let r2 := evalTrials cfg b fpIdx isRef moduleIds board_edge vias tht_pads
        masks dwgs center_x_mm center_y_mm rest r1.2
      ((p, r1.1) :: r2.1, r2.2)

/-- The optimizer's best evaluated point: fold keeping the strictly
smaller objective value (first wins ties). -/
def bestOf (acc : (ℚ × ℚ) × ObjVal) : List ((ℚ × ℚ) × ObjVal) → (ℚ × ℚ) × ObjVal
  | [] => acc
  | x :: rest => bestOf (if x.2.ltB acc.2 then x else acc) rest

/-- `place_field_annealing` (source lines 186-253), with the stochastic
optimizer modelled by the list of points it evaluates (`trials`): score
every trial, take the best; if its value is below `1e5`, commit that
position, otherwise restore the initial position and report failure. -/
def place_field_annealing (cfg : SilkscreenConfig) (b : Board) (st : PosState)
    (fpIdx : Nat) (isRef : Bool) (moduleIds : List Nat) (board_edge : Vec → Bool)
    (vias : List Via) (tht_pads : List Pad) (masks : List Dwg) (dwgs : List Dwg)
    (trials : List (ℚ × ℚ)) : Except Unit (Bool × PosState) :=
  let initial_pos := getPos st fpIdx isRef
  let fp := b.fps.getD fpIdx default
  let center_x_mm := toMM fp.bb.GetCenter.x
  let center_y_mm := toMM fp.bb.GetCenter.y
  let evals := evalTrials cfg b fpIdx isRef moduleIds board_edge vias tht_pads
    masks dwgs center_x_mm center_y_mm trials st
  match evals.1 with
  | [] => .ok (false, setPos evals.2 fpIdx isRef initial_pos)
  | e :: rest =>
      let best := bestOf e rest
      if best.2.ltB ⟨100000, 0⟩ then
        match mkVec32 (fromMM best.1.1) (fromMM best.1.2) with
        | none => .error ()
        | some v => .ok (true, setPos evals.2 fpIdx isRef v)
      else
        .ok (false, setPos evals.2 fpIdx isRef initial_pos)

/-- The via pool built by `run()` (source lines 107-113): empty when
`ignore_vias` is set; otherwise the `PCB_VIA` tracks touching an outer
copper layer. -/
def vias_all (cfg : SilkscreenConfig) (b : Board) : List Via :=
  b.tracks.filter (fun trk => !cfg.ignore_vias && trk.isVia && (trk.topFCu || trk.botBCu))

/-- The through-hole pad pool (source line 114). -/
def tht_pads_all (b : Board) : List Pad := b.pads.filter (fun p => p.hasHole)

/-- The silkscreen drawing pool (source line 115). -/
def dwgs_all (b : Board) : List Dwg := b.dwgs.filter is_silkscreen_dwg

/-- The mask pool (source lines 116-120). -/
def mask_all (b : Board) : List Dwg :=
  b.dwgs.filter (fun d => d.IsOnLayer .fMask || d.IsOnLayer .bMask)

/-- Strategy dispatch (source lines 100-103): `place_field` is the
annealing routine iff `config.method == "anneal"`. The grid strategy does
not consume the optimizer's trial points. -/
def placeField (cfg : SilkscreenConfig) (b : Board) (st : PosState) (fpIdx : Nat)
    (isRef : Bool) (moduleIds : List Nat) (board_edge : Vec → Bool)
    (vias : List Via) (tht_pads : List Pad) (masks : List Dwg) (dwgs : List Dwg)
    (trials : List (ℚ × ℚ)) : Except Unit (Bool × PosState) :=
  if cfg.method = "anneal" then
    place_field_annealing cfg b st fpIdx isRef moduleIds board_edge vias tht_pads
      masks dwgs trials
  else
    place_field_brute_force cfg b st fpIdx isRef moduleIds board_edge vias
      tht_pads masks dwgs

/-- Processing of one footprint inside `run()`'s main loop, after the
pruned pools are fixed (source lines 169-180): place the reference if
eligible, then the value, accumulating (state, moved, considered). -/
def processFp (cfg : SilkscreenConfig) (b : Board) (fpIdx : Nat) (fp : Fp)
    (moduleIds : List Nat) (board_edge : Vec → Bool) (vias : List Via)
    (tht_pads : List Pad) (masks : List Dwg) (dwgs : List Dwg) (st : PosState)
    (trialsRef trialsVal : List (ℚ × ℚ)) : Except Unit (PosState × Nat × Nat) :=
  if is_silkscreen_text fp.ref then
    match placeField cfg b st fpIdx true moduleIds board_edge vias tht_pads masks
        dwgs trialsRef with
    | .error e => .error e
    | .ok (moved1, st1) =>
        if is_silkscreen_text fp.val then
          match placeField cfg b st1 fpIdx false moduleIds board_edge vias
              tht_pads masks dwgs trialsVal with
          | .error e => .error e
          | .ok (moved2, st2) =>
              .ok (st2, (if moved1 then 1 else 0) + (if moved2 then 1 else 0), 2)
        else
          .ok (st1, (if moved1 then 1 else 0), 1)
  else
    if is_silkscreen_text fp.val then
      match placeField cfg b st fpIdx false moduleIds board_edge vias tht_pads
          masks dwgs trialsVal with
      | .error e => .error e
      | .ok (moved2, st2) => .ok (st2, (if moved2 then 1 else 0), 1)
    else
      .ok (st, 0, 0)

/-- The orchestrator's per-component pruning radius `max_fp_size`
(source lines 144-159), as an exact real: half the footprint's
bounding-box diagonal plus the native-unit maximum allowed distance, plus
half the largest eligible label diagonal. -/
def MaxFpSize (cfg : SilkscreenConfig) (fp : Fp) (r : ℝ) : Prop :=
  r = Real.sqrt ((diagSq fp.bb : ℚ) : ℝ) / 2 +
      ((fromMM cfg.max_allowed_distance : Int) : ℝ) +
      (if is_silkscreen_text fp.ref && is_silkscreen_text fp.val then
        max (Real.sqrt ((diagSq (labelBB ⟨0, 0⟩ fp.ref) : ℚ) : ℝ))
            (Real.sqrt ((diagSq (labelBB ⟨0, 0⟩ fp.val) : ℚ) : ℝ)) / 2
      else if is_silkscreen_text fp.ref then
        Real.sqrt ((diagSq (labelBB ⟨0, 0⟩ fp.ref) : ℚ) : ℝ) / 2
      else if is_silkscreen_text fp.val then
        Real.sqrt ((diagSq (labelBB ⟨0, 0⟩ fp.val) : ℚ) : ℝ) / 2
      else 0)

/-- `run()`'s main loop (source lines 132-184) as a relation: the pruning
steps are relational because the radius is an exact real. `oracle i r`
supplies the stochastic trial points for footprint `i`'s reference
(`r = true`) or value label; the grid strategy ignores it. -/
def run_rel (cfg : SilkscreenConfig) (b : Board) (oracle : Nat → Bool → List (ℚ × ℚ)) :
    List (Nat × Fp) → PosState → Nat → Nat → Except Unit (PosState × Nat × Nat) → Prop
  | [], st, moved, total, out => out = .ok (st, moved, total)
  | (i, fp) :: rest, st, moved, total, out =>
      if cfg.only_process_selection && !fp.selected then
        run_rel cfg b oracle rest st moved total out
      else if !is_silkscreen_text fp.ref && !is_silkscreen_text fp.val then
        run_rel cfg b oracle rest st moved total out
      else
        ∃ (r : ℝ) (viasP : List Via) (modsP : List (Nat × Fp)) (padsP : List Pad)
          (masksP : List Dwg) (dwgsP : List Dwg),
          MaxFpSize cfg fp r ∧
          PrunedRel Via.bb fp.bb.GetCenter r (vias_all cfg b) viasP ∧
          PrunedRel (fun p => p.2.bb) fp.bb.GetCenter r b.fps.enum modsP ∧
          PrunedRel Pad.bb fp.bb.GetCenter r (tht_pads_all b) padsP ∧
          PrunedRel Dwg.bb fp.bb.GetCenter r (mask_all b) masksP ∧
          PrunedRel Dwg.bb fp.bb.GetCenter r (dwgs_all b) dwgsP ∧
          match processFp cfg b i fp (modsP.map (fun p => p.1)) b.outline viasP
              padsP masksP dwgsP st (oracle i true) (oracle i false) with
          | .error e => out = .error e
          | .ok (st', m, t) => run_rel cfg b oracle rest st' (moved + m) (total + t) out

/-- `run()` over the whole board: iterate the indexed footprint list from
the initial position state, starting both counters at zero. -/
def Run (cfg : SilkscreenConfig) (b : Board) (st0 : PosState)
    (oracle : Nat → Bool → List (ℚ × ℚ)) (out : Except Unit (PosState × Nat × Nat)) : Prop :=
  run_rel cfg b oracle b.fps.enum st0 0 0 out

/-- Claim C4's wording of the reference-label clause: skip the owning
component exactly when a Reference is being placed. -/
def refLabelConflict_spec (b : Board) (st : PosState) (fpIdx : Nat) (isRef : Bool)
    (bbItem : Box) (itemLayer : Layer) (i : Nat) : Bool :=
  let fp2 := b.fps.getD i default
  (if isRef then decide (fpIdx ≠ i) else true) && is_silkscreen_text fp2.ref &&
    fp2.ref.IsOnLayer itemLayer && bbItem.Intersects (labelBB (getRV st i).1 fp2.ref)

/-- Claim C4's wording of the value-label clause: skip the owning component
exactly when a Value is being placed. -/
def valueLabelConflict_spec (b : Board) (st : PosState) (fpIdx : Nat) (isRef : Bool)
    (bbItem : Box) (itemLayer : Layer) (i : Nat) : Bool :=
  let fp2 := b.fps.getD i default
  (if isRef then true else decide (fpIdx ≠ i)) && is_silkscreen_text fp2.val &&
    fp2.val.IsOnLayer itemLayer && bbItem.Intersects (labelBB (getRV st i).2 fp2.val)

/-- Claim C5's deflation: shrink the box about its own center (width and
height scaled, center preserved). -/
def deflate_centered (bb : Box) (f : ℚ) : Box :=
  let w := pyInt ((bb.GetWidth : ℚ) * f)
  let h := pyInt ((bb.GetHeight : ℚ) * f)
  ⟨⟨bb.GetCenter.x - Int.tdiv w 2, bb.GetCenter.y - Int.tdiv h 2⟩, ⟨w, h⟩⟩

/-- The Validity Predicate exactly as claim C5 words it: the
center-preserving deflated box is used only for the outline-containment
check, and every obstacle check (labels, vias, through-hole pads, masks,
drawings) uses the label's undeflated box or effective shape. -/
def is_position_valid_C5spec (cfg : SilkscreenConfig) (b : Board) (st : PosState)
    (fpIdx : Nat) (isRef : Bool) (moduleIds : List Nat) (board_edge : Vec → Bool)
    (vias : List Via) (tht_pads : List Pad) (masks : List Dwg)
    (drawings : List Dwg) : Bool :=
  let td := itemData b fpIdx isRef
  let ipos := getPos st fpIdx isRef
  let bb0 := labelBB ipos td
  bb_in_shape_poly_set (deflate_centered bb0 cfg.deflate_factor) board_edge true &&
  moduleIds.all (fun i => moduleOK b st fpIdx isRef bb0 (labelShape ipos td) td.layer i) &&
  vias.all (fun via => viaOK bb0 td.layer via) &&
  tht_pads.all (fun pad => padOK bb0 pad) &&
  masks.all (fun mask => maskOK (labelShape ipos td) td mask) &&
  drawings.all (fun d => dwgOK (labelShape ipos td) td.layer d)

/-- A grid-strategy configuration with a 1 mm step (other fields default:
5 mm radius, no deflation, vias ignored, no selection filter). -/
def cfgGrid : SilkscreenConfig := { method := "grid", step_size := 1 }

/-- Scenario A footprint: a 4 mm x 2 mm component whose bounding box is
centred at the origin, with a visible front-silkscreen Reference of size
1 mm x 1 mm and a hidden Value. -/
def fpA : Fp :=
  { bb := ⟨⟨-2000000, -1000000⟩, ⟨4000000, 2000000⟩⟩
    ref := ⟨⟨1000000, 1000000⟩, .fSilk, true⟩
    val := ⟨⟨1000000, 1000000⟩, .fSilk, false⟩
    courtF := none
    courtB := none
    selected := false }

/-- Scenario A board: the single footprint, no other features, an
unbounded board outline. -/
def boardA : Board :=
  { fps := [fpA], tracks := [], pads := [], dwgs := [], outline := fun _ => true }

/-- Scenario A initial state: the Reference sits at (0.7 mm, 0.3 mm),
overlapping the component body. -/
def stA0 : PosState := [(⟨700000, 300000⟩, ⟨0, 0⟩)]

/-- Scenario A final state: the Reference ends at the component's
bounding-box center. -/
def stAF : PosState := [(⟨0, 0⟩, ⟨0, 0⟩)]

/-- An empty stochastic-trial oracle (the grid strategy never reads it). -/
def oracleNil : Nat → Bool → List (ℚ × ℚ) := fun _ _ => []

/-- C1 counterexample footprint: a degenerate (point) bounding box at the
origin with a visible 3 mm x 4 mm Reference (diagonal exactly 5 mm). -/
def fpC1 : Fp :=
  { bb := ⟨⟨0, 0⟩, ⟨0, 0⟩⟩
    ref := ⟨⟨3000000, 4000000⟩, .fSilk, true⟩
    val := ⟨⟨1000000, 1000000⟩, .fSilk, false⟩
    courtF := none
    courtB := none
    selected := false }

/-- C1 counterexample pad: a 0.3 mm x 0.4 mm through-hole pad whose
bounding box is centred at (6 mm, 6 mm) — Euclidean distance √72 mm from
the footprint center, beyond the pruning radius 7.5 mm + 0.5 mm. -/
def padC1 : Pad :=
  { hasHole := true, bb := ⟨⟨5850000, 5800000⟩, ⟨300000, 400000⟩⟩ }

/-- C1 counterexample outline: exactly the Reference's bounding box when
placed at (5 mm, 5 mm), so only that grid candidate passes containment. -/
def outlineC1 : Vec → Bool := fun v =>
  decide (3500000 ≤ v.x) && decide (v.x ≤ 6500000) &&
  decide (3000000 ≤ v.y) && decide (v.y ≤ 7000000)

def boardC1 : Board :=
  { fps := [fpC1], tracks := [], pads := [padC1], dwgs := [], outline := outlineC1 }

def stC1 : PosState := [(⟨0, 0⟩, ⟨0, 0⟩)]

/-- C1 counterexample final state: the Reference committed at (5 mm, 5 mm),
where it overlaps the pruned-away pad. -/
def stC1F : PosState := [(⟨5000000, 5000000⟩, ⟨0, 0⟩)]

/-- A grid configuration with a 50 % bounding-box deflation factor. -/
def cfgDeflate : SilkscreenConfig :=
  { method := "grid", step_size := 1, deflate_factor := 1/2 }

/-- C5 counterexample footprint: 4 mm square body, 4 mm square Reference. -/
def fpC5 : Fp :=
  { bb := ⟨⟨-2000000, -2000000⟩, ⟨4000000, 4000000⟩⟩
    ref := ⟨⟨4000000, 4000000⟩, .fSilk, true⟩
    val := ⟨⟨1000000, 1000000⟩, .fSilk, false⟩
    courtF := none
    courtB := none
    selected := false }

/-- C5 counterexample pad: 0.5 mm square at (1 mm, 1 mm) — inside the
Reference's undeflated box, outside its deflated box. -/
def padC5 : Pad :=
  { hasHole := true, bb := ⟨⟨1000000, 1000000⟩, ⟨500000, 500000⟩⟩ }

def boardC5 : Board :=
  { fps := [fpC5], tracks := [], pads := [padC5], dwgs := [], outline := fun _ => true }

def stC5 : PosState := [(⟨0, 0⟩, ⟨0, 0⟩)]

/-- C7 counterexample footprint: bounding box a point at x = 2147.48 mm,
3.647 µm below the 32-bit coordinate limit, so the grid candidate 1 mm to
the right of the center does not fit in a `VECTOR2I`. -/
def fpC7 : Fp :=
  { bb := ⟨⟨2147480000, 0⟩, ⟨0, 0⟩⟩
    ref := ⟨⟨1000000, 1000000⟩, .fSilk, true⟩
    val := ⟨⟨1000000, 1000000⟩, .fSilk, false⟩
    courtF := none
    courtB := none
    selected := false }

def boardC7 : Board :=
  { fps := [fpC7], tracks := [], pads := [], dwgs := [], outline := fun _ => false }

def stC7 : PosState := [(⟨0, 0⟩, ⟨0, 0⟩)]

/-- A failure-scenario footprint at the origin (used to witness the
restoration guarantee): everything is rejected by an all-false outline. -/
def fpF : Fp :=
  { bb := ⟨⟨0, 0⟩, ⟨0, 0⟩⟩
    ref := ⟨⟨1000000, 1000000⟩, .fSilk, true⟩
    val := ⟨⟨1000000, 1000000⟩, .fSilk, false⟩
    courtF := none
    courtB := none
    selected := false }

def boardF : Board :=
  { fps := [fpF], tracks := [], pads := [], dwgs := [], outline := fun _ => false }

def stF0 : PosState := [(⟨123, 456⟩, ⟨0, 0⟩)]

/-- C10 outline: a 12 x 12 square with the open square hole (4,8) x (4,8)
removed — a non-convex polygonal region. -/
def polyC10 : Vec → Bool := fun v =>
  decide (0 ≤ v.x) && decide (v.x ≤ 12) && decide (0 ≤ v.y) && decide (v.y ≤ 12) &&
  !(decide (4 < v.x) && decide (v.x < 8) && decide (4 < v.y) && decide (v.y < 8))

/-- C10 box: corners (0,0)-(12,8) and center (6,4) all lie in `polyC10`,
but the edge point (6,6) does not. -/
def bbC10 : Box := ⟨⟨0, 0⟩, ⟨12, 8⟩⟩

/-- A one-trial stochastic oracle used to exercise the annealing path. -/
def oracleOne : Nat → Bool → List (ℚ × ℚ) := fun _ _ => [(0, 0)]

/-- An annealing configuration (the source default). -/
def cfgAnneal : SilkscreenConfig := { method := "anneal", step_size := 1 }

/-- Real-number characterization of `√a < m + √b` by rational sign tests. -/
theorem sqrt_lt_add_sqrt_iff {a m b : ℝ} (ha : 0 ≤ a) (hb : 0 ≤ b) :
    (Real.sqrt a < m + Real.sqrt b) ↔
      ((0 ≤ m ∧ (a - m * m - b < 0 ∨
          (0 ≤ a - m * m - b ∧
            (a - m * m - b) * (a - m * m - b) < 4 * (m * m) * b))) ∨
       (m < 0 ∧ m * m < b ∧ a - m * m - b < 0 ∧
          4 * (m * m) * b < (a - m * m - b) * (a - m * m - b))) := by
  have hsb : 0 ≤ Real.sqrt b := Real.sqrt_nonneg b
  have hsa : 0 ≤ Real.sqrt a := Real.sqrt_nonneg a
  have hsb2 : Real.sqrt b * Real.sqrt b = b := Real.mul_self_sqrt hb
  constructor
  · intro h
    have hpos : 0 < m + Real.sqrt b := lt_of_le_of_lt hsa h
    have ha2 : a < (m + Real.sqrt b) ^ 2 := (Real.sqrt_lt' hpos).mp h
    have ht2 : a - m * m - b < 2 * m * Real.sqrt b := by nlinarith [hsb2]
    rcases le_or_lt 0 m with hm | hm
    · left
      refine ⟨hm, ?_⟩
      rcases lt_or_le (a - m * m - b) 0 with htn | htn
      · exact Or.inl htn
      · right
        refine ⟨htn, ?_⟩
        have hc : 0 < (2 * m * Real.sqrt b - (a - m * m - b)) *
            (2 * m * Real.sqrt b + (a - m * m - b)) := by
          apply mul_pos
          · linarith
          · have : 0 ≤ 2 * m * Real.sqrt b := by positivity
            rcases lt_or_eq_of_le htn with h0 | h0
            · linarith
            · rw [← h0] at ht2 ⊢
              linarith
        nlinarith [hsb2]
    · right
      have h1 : -m < Real.sqrt b := by linarith
      refine ⟨hm, ?_, ?_, ?_⟩
      · nlinarith [hsb2]
      · have : 2 * m * Real.sqrt b ≤ 0 := by
          have := mul_nonneg (le_of_lt (neg_pos.mpr hm)) hsb
          nlinarith
        linarith
      · have hcneg : 2 * m * Real.sqrt b ≤ 0 := by
          have := mul_nonneg (le_of_lt (neg_pos.mpr hm)) hsb
          nlinarith
        have := mul_pos_of_neg_of_neg
          (show a - m * m - b - 2 * m * Real.sqrt b < 0 by linarith)
          (show a - m * m - b + 2 * m * Real.sqrt b < 0 by linarith)
        nlinarith [hsb2]
  · intro h
    rcases h with ⟨hm, hcase⟩ | ⟨hm, hmb, htn, hq⟩
    · have key : a - m * m - b < 2 * m * Real.sqrt b := by
        rcases hcase with htn | ⟨htp, hq⟩
        · have : 0 ≤ 2 * m * Real.sqrt b := by positivity
          linarith
        · by_contra hcon
          push_neg at hcon
          nlinarith [hsb2, mul_nonneg hm hsb]
      have hpos : 0 < m + Real.sqrt b := by
        by_contra hcon
        push_neg at hcon
        nlinarith [hsb2]
      have ha2 : a < (m + Real.sqrt b) ^ 2 := by nlinarith [hsb2]
      exact (Real.sqrt_lt' hpos).mpr ha2
    · have hbpos : 0 < b := lt_of_le_of_lt (mul_self_nonneg m) hmb
      have hsbpos : 0 < Real.sqrt b := Real.sqrt_pos.mpr hbpos
      have h1 : -m < Real.sqrt b := by
        nlinarith [hsb2]
      have hpos : 0 < m + Real.sqrt b := by linarith
      have hcneg : 2 * m * Real.sqrt b < 0 := by
        have := mul_pos (neg_pos.mpr hm) hsbpos
        nlinarith
      have key : a - m * m - b < 2 * m * Real.sqrt b := by
        by_contra hcon
        push_neg at hcon
        nlinarith [hsb2]
      have ha2 : a < (m + Real.sqrt b) ^ 2 := by nlinarith [hsb2]
      exact (Real.sqrt_lt' hpos).mpr ha2

/-- The decision procedure `sqrtLtB` agrees with the real comparison. -/
theorem sqrtLtB_correct (A m B : ℚ) (hA : 0 ≤ A) (hB : 0 ≤ B) :
    sqrtLtB A m B = true ↔ Real.sqrt (A : ℝ) < (m : ℝ) + Real.sqrt (B : ℝ) := by
  have ha : (0 : ℝ) ≤ (A : ℝ) := by exact_mod_cast hA
  have hb : (0 : ℝ) ≤ (B : ℝ) := by exact_mod_cast hB
  rw [sqrt_lt_add_sqrt_iff ha hb]
  unfold sqrtLtB
  rcases le_or_lt 0 m with hm | hm
  · have hmr : (0 : ℝ) ≤ (m : ℝ) := by exact_mod_cast hm
    have hmr' : ¬((m : ℝ) < 0) := not_lt.mpr hmr
    simp only [if_pos hm, Bool.or_eq_true, Bool.and_eq_true, decide_eq_true_eq]
    constructor
    · rintro (h1 | ⟨h1, h2⟩)
      · exact Or.inl ⟨hmr, Or.inl (by push_cast; exact_mod_cast h1)⟩
      · refine Or.inl ⟨hmr, Or.inr ⟨?_, ?_⟩⟩
        · push_cast
          exact_mod_cast h1
        · push_cast
          exact_mod_cast h2
    · rintro (⟨_, h1 | ⟨h1, h2⟩⟩ | ⟨h1, _⟩)
      · left
        exact_mod_cast (by push_cast at h1 ⊢; exact h1 : ((A : ℝ) - m * m - B < 0))
      · right
        constructor
        · exact_mod_cast (by push_cast at h1 ⊢; exact h1 : ((0:ℝ) ≤ (A : ℝ) - m * m - B))
        · exact_mod_cast (by push_cast at h2 ⊢; exact h2 :
            (((A : ℝ) - m * m - B) * ((A : ℝ) - m * m - B) < 4 * ((m:ℝ) * m) * B))
      · exact absurd h1 hmr'
  · have hmr : (m : ℝ) < 0 := by exact_mod_cast hm
    have hmr' : ¬((0 : ℝ) ≤ (m : ℝ)) := not_le.mpr hmr
    simp only [if_neg (not_le.mpr hm), Bool.and_eq_true, decide_eq_true_eq]
    constructor
    · rintro ⟨⟨h1, h2⟩, h3⟩
      refine Or.inr ⟨hmr, ?_, ?_, ?_⟩
      · push_cast
        exact_mod_cast h1
      · push_cast
        exact_mod_cast h2
      · push_cast
        exact_mod_cast h3
    · rintro (⟨h1, _⟩ | ⟨_, h1, h2, h3⟩)
      · exact absurd h1 hmr'
      · refine ⟨⟨?_, ?_⟩, ?_⟩
        · exact_mod_cast (by push_cast at h1 ⊢; exact h1 : ((m:ℝ) * m < (B : ℝ)))
        · exact_mod_cast (by push_cast at h2 ⊢; exact h2 : ((A : ℝ) - m * m - B < 0))
        · exact_mod_cast (by push_cast at h3 ⊢; exact h3 :
            (4 * ((m:ℝ) * m) * B < ((A : ℝ) - m * m - B) * ((A : ℝ) - m * m - B)))

theorem distSq_nonneg (c v : Vec) : 0 ≤ distSq c v :=
  add_nonneg (mul_self_nonneg _) (mul_self_nonneg _)

theorem diagSq_nonneg (b : Box) : 0 ≤ diagSq b :=
  add_nonneg (mul_self_nonneg _) (mul_self_nonneg _)

theorem keepR_iff_sqrtLtB {α : Type} (bbOf : α → Box) (c : Vec) (m : ℚ) (o : α) :
    keepR bbOf c (m : ℝ) o ↔
      sqrtLtB (distSq c ((bbOf o).GetCenter)) m (diagSq (bbOf o)) = true := by
  unfold keepR
  exact (sqrtLtB_correct _ m _ (distSq_nonneg _ _) (diagSq_nonneg _)).symm

theorem zip_mask_filter {α : Type} (f : α → Bool) :
    ∀ (xs : List α),
      ((xs.zip (xs.map f)).filter (fun p => p.2)).map (fun p => p.1) = xs.filter f := by
  intro xs
  induction xs with
  | nil => rfl
  | cons x xs ih =>
      by_cases h : f x
      · simp [List.zip_cons_cons, List.filter_cons, h, ih]
      · simp [List.zip_cons_cons, List.filter_cons, h, ih]

theorem filter_distance_eq_filter {α : Type} (bbOf : α → Box) (c : Vec) (m : ℚ)
    (xs : List α) :
    filter_distance bbOf c m xs =
      xs.filter (fun o => sqrtLtB (distSq c ((bbOf o).GetCenter)) m (diagSq (bbOf o))) := by
  unfold filter_distance
  exact zip_mask_filter _ xs

theorem prunedRel_unique {α : Type} (bbOf : α → Box) (c : Vec) (r : ℝ) :
    ∀ (xs ys1 ys2 : List α),
      PrunedRel bbOf c r xs ys1 → PrunedRel bbOf c r xs ys2 → ys1 = ys2 := by
  intro xs
  induction xs with
  | nil =>
      intro ys1 ys2 h1 h2
      unfold PrunedRel at h1 h2
      rw [h1, h2]
  | cons x xs ih =>
      intro ys1 ys2 h1 h2
      unfold PrunedRel at h1 h2
      rcases h1 with ⟨hk1, ys1', hys1, hp1⟩ | ⟨hk1, hp1⟩ <;>
        rcases h2 with ⟨hk2, ys2', hys2, hp2⟩ | ⟨hk2, hp2⟩
      · rw [hys1, hys2, ih _ _ hp1 hp2]
      · exact absurd hk1 hk2
      · exact absurd hk2 hk1
      · exact ih _ _ hp1 hp2

/-- `filter_distance` realizes `PrunedRel` at a rational radius. -/
theorem filter_distance_prunedRel {α : Type} (bbOf : α → Box) (c : Vec) (m : ℚ) :
    ∀ (xs : List α), PrunedRel bbOf c (m : ℝ) xs (filter_distance bbOf c m xs) := by
  intro xs
  rw [filter_distance_eq_filter]
  induction xs with
  | nil => rfl
  | cons x xs ih =>
      unfold PrunedRel
      by_cases h : sqrtLtB (distSq c ((bbOf x).GetCenter)) m (diagSq (bbOf x)) = true
      · left
        refine ⟨(keepR_iff_sqrtLtB bbOf c m x).mpr h, _, ?_, ih⟩
        simp [List.filter_cons, h]
      · right
        refine ⟨fun hk => h ((keepR_iff_sqrtLtB bbOf c m x).mp hk), ?_⟩
        have heq : (x :: xs).filter
            (fun o => sqrtLtB (distSq c ((bbOf o).GetCenter)) m (diagSq (bbOf o))) =
            xs.filter (fun o => sqrtLtB (distSq c ((bbOf o).GetCenter)) m (diagSq (bbOf o))) := by
          simp [List.filter_cons, h]
        rw [heq]
        exact ih

theorem ObjVal.ltB_correct (v w : ObjVal) (hv : 0 ≤ v.dsq) (hw : 0 ≤ w.dsq) :
    v.ltB w = true ↔
      (v.pen : ℝ) + Real.sqrt ((v.dsq : ℚ) : ℝ) <
        (w.pen : ℝ) + Real.sqrt ((w.dsq : ℚ) : ℝ) := by
  unfold ObjVal.ltB
  rw [sqrtLtB_correct _ _ _ hv hw]
  constructor
  · intro h
    have : ((w.pen - v.pen : ℚ) : ℝ) = (w.pen : ℝ) - (v.pen : ℝ) := by push_cast; ring
    rw [this] at h
    linarith
  · intro h
    have : ((w.pen - v.pen : ℚ) : ℝ) = (w.pen : ℝ) - (v.pen : ℝ) := by push_cast; ring
    rw [this]
    linarith

theorem setPos_nil (i : Nat) (isRef : Bool) (v : Vec) : setPos [] i isRef v = [] := by
  unfold setPos
  rfl

theorem setPos_cons_succ (a : Vec × Vec) (l : PosState) (n : Nat) (isRef : Bool) (v : Vec) :
    setPos (a :: l) (n + 1) isRef v = a :: setPos l n isRef v := by
  unfold setPos getRV
  cases isRef <;> simp [List.getD]

theorem setPos_cons_zero (a : Vec × Vec) (l : PosState) (isRef : Bool) (v : Vec) :
    setPos (a :: l) 0 isRef v = (if isRef then (v, a.2) else (a.1, v)) :: l := by
  unfold setPos getRV
  cases isRef <;> simp [List.getD]

/-- Two writes to the same label slot collapse to the last one. -/
theorem setPos_setPos : ∀ (st : PosState) (i : Nat) (isRef : Bool) (v w : Vec),
    setPos (setPos st i isRef v) i isRef w = setPos st i isRef w := by
  intro st
  induction st with
  | nil =>
      intro i isRef v w
      simp only [setPos_nil]
  | cons a l ih =>
      intro i isRef v w
      cases i with
      | zero =>
          rw [setPos_cons_zero, setPos_cons_zero, setPos_cons_zero]
          cases isRef <;> simp
      | succ n =>
          rw [setPos_cons_succ, setPos_cons_succ, setPos_cons_succ, ih]

/-- Writing back the current position is the identity. -/
theorem setPos_getPos_self : ∀ (st : PosState) (i : Nat) (isRef : Bool),
    setPos st i isRef (getPos st i isRef) = st := by
  intro st
  induction st with
  | nil =>
      intro i isRef
      rw [setPos_nil]
  | cons a l ih =>
      intro i isRef
      cases i with
      | zero =>
          rw [setPos_cons_zero]
          unfold getPos getRV
          cases isRef <;> simp [List.getD]
      | succ n =>
          rw [setPos_cons_succ]
          have hg : getPos (a :: l) (n + 1) isRef = getPos l n isRef := by
            unfold getPos getRV
            cases isRef <;> simp [List.getD]
          rw [hg, ih n isRef]

/-- The annealing objective restores the position state on every exit
path (overflow, outline failure, invalid, valid). -/
theorem objective_state_eq (cfg : SilkscreenConfig) (b : Board) (fpIdx : Nat)
    (isRef : Bool) (moduleIds : List Nat) (board_edge : Vec → Bool)
    (vias : List Via) (tht_pads : List Pad) (masks : List Dwg) (dwgs : List Dwg)
    (cx cy : ℚ) (pos : ℚ × ℚ) (st : PosState) :
    (objective cfg b fpIdx isRef moduleIds board_edge vias tht_pads masks dwgs
      cx cy pos st).2 = st := by
  unfold objective
  cases hm : mkVec32 (fromMM pos.1) (fromMM pos.2) with
  | none => simp [hm, setPos_getPos_self]
  | some v =>
      have h1 : setPos (setPos st fpIdx isRef v) fpIdx isRef (getPos st fpIdx isRef) = st := by
        rw [setPos_setPos, setPos_getPos_self]
      simp only [hm]
      split
      · exact h1
      · split
        · exact h1
        · exact h1

theorem evalTrials_state_eq (cfg : SilkscreenConfig) (b : Board) (fpIdx : Nat)
    (isRef : Bool) (moduleIds : List Nat) (board_edge : Vec → Bool)
    (vias : List Via) (tht_pads : List Pad) (masks : List Dwg) (dwgs : List Dwg)
    (cx cy : ℚ) :
    ∀ (trials : List (ℚ × ℚ)) (st : PosState),
      (evalTrials cfg b fpIdx isRef moduleIds board_edge vias tht_pads masks dwgs
        cx cy trials st).2 = st := by
  intro trials
  induction trials with
  | nil => intro st; rfl
  | cons p rest ih =>
      intro st
      unfold evalTrials
      simp only
      rw [objective_state_eq, ih]

/-- Because the objective is state-preserving, every evaluation sees the
same state, and the evaluation trace is a pure map over the trials. -/
theorem evalTrials_fst (cfg : SilkscreenConfig) (b : Board) (fpIdx : Nat)
    (isRef : Bool) (moduleIds : List Nat) (board_edge : Vec → Bool)
    (vias : List Via) (tht_pads : List Pad) (masks : List Dwg) (dwgs : List Dwg)
    (cx cy : ℚ) :
    ∀ (trials : List (ℚ × ℚ)) (st : PosState),
      (evalTrials cfg b fpIdx isRef moduleIds board_edge vias tht_pads masks dwgs
        cx cy trials st).1 =
      trials.map (fun p =>
        (p, (objective cfg b fpIdx isRef moduleIds board_edge vias tht_pads masks
          dwgs cx cy p st).1)) := by
  intro trials
  induction trials with
  | nil => intro st; rfl
  | cons p rest ih =>
      intro st
      unfold evalTrials
      simp only [List.map_cons]
      rw [objective_state_eq, ih]

/-- The grid inner loop only ever writes the moved label's slot: any later
write to that slot erases its effect. -/
theorem searchLoop_setPos (cfg : SilkscreenConfig) (b : Board) (fpIdx : Nat)
    (isRef : Bool) (moduleIds : List Nat) (board_edge : Vec → Bool)
    (vias : List Via) (tht_pads : List Pad) (masks : List Dwg) (dwgs : List Dwg)
    (cx cy : ℚ) :
    ∀ (cands : List (ℚ × ℚ)) (st : PosState) (res : Option Vec) (stOut : PosState),
      searchLoop cfg b fpIdx isRef moduleIds board_edge vias tht_pads masks dwgs
        cx cy cands st = .ok (res, stOut) →
      ∀ v, setPos stOut fpIdx isRef v = setPos st fpIdx isRef v := by
  intro cands
  induction cands with
  | nil =>
      intro st res stOut h v
      unfold searchLoop at h
      injection h with h
      injection h with h1 h2
      rw [← h2]
  | cons c rest ih =>
      intro st res stOut h v
      unfold searchLoop at h
      cases hm : mkVec32 (fromMM (cx + c.1)) (fromMM (cy + c.2)) with
      | none => rw [hm] at h; exact absurd h (by simp)
      | some w =>
          rw [hm] at h
          simp only at h
          split at h
          · injection h with h
            injection h with h1 h2
            rw [← h2, setPos_setPos]
          · rw [ih _ _ _ h v, setPos_setPos]

/-- If the grid inner loop accepts a candidate, the resulting state is the
initial state with the label moved there, and that position is valid. -/
theorem searchLoop_found (cfg : SilkscreenConfig) (b : Board) (fpIdx : Nat)
    (isRef : Bool) (moduleIds : List Nat) (board_edge : Vec → Bool)
    (vias : List Via) (tht_pads : List Pad) (masks : List Dwg) (dwgs : List Dwg)
    (cx cy : ℚ) :
    ∀ (cands : List (ℚ × ℚ)) (st : PosState) (v : Vec) (stOut : PosState),
      searchLoop cfg b fpIdx isRef moduleIds board_edge vias tht_pads masks dwgs
        cx cy cands st = .ok (some v, stOut) →
      stOut = setPos st fpIdx isRef v ∧
      is_position_valid cfg b (setPos st fpIdx isRef v) fpIdx isRef moduleIds
        board_edge vias tht_pads masks dwgs = true := by
  intro cands
  induction cands with
  | nil =>
      intro st v stOut h
      unfold searchLoop at h
      injection h with h
      injection h with h1 h2
      exact absurd h1 (by simp)
  | cons c rest ih =>
      intro st v stOut h
      unfold searchLoop at h
      cases hm : mkVec32 (fromMM (cx + c.1)) (fromMM (cy + c.2)) with
      | none => rw [hm] at h; exact absurd h (by simp)
      | some w =>
          rw [hm] at h
          simp only at h
          split at h
          · rename_i hvalid
            injection h with h
            injection h with h1 h2
            injection h1 with h1
            rw [← h1, ← h2]
            exact ⟨rfl, hvalid⟩
          · have hres := ih _ _ _ h
            rw [setPos_setPos] at hres
            exact hres

theorem objective_pen_cases (cfg : SilkscreenConfig) (b : Board) (fpIdx : Nat)
    (isRef : Bool) (moduleIds : List Nat) (board_edge : Vec → Bool)
    (vias : List Via) (tht_pads : List Pad) (masks : List Dwg) (dwgs : List Dwg)
    (cx cy : ℚ) (pos : ℚ × ℚ) (st : PosState) :
    (objective cfg b fpIdx isRef moduleIds board_edge vias tht_pads masks dwgs
      cx cy pos st).1.pen = 0 ∨
    (objective cfg b fpIdx isRef moduleIds board_edge vias tht_pads masks dwgs
      cx cy pos st).1.pen = INF_ERROR_VALUE := by
  unfold objective
  cases hm : mkVec32 (fromMM pos.1) (fromMM pos.2) with
  | none => simp [hm]
  | some v =>
      simp only [hm]
      split
      · simp
      · split <;> simp

/-- A zero penalty certifies a successful coordinate encoding and a valid
position at the encoded candidate. -/
theorem objective_pen_zero (cfg : SilkscreenConfig) (b : Board) (fpIdx : Nat)
    (isRef : Bool) (moduleIds : List Nat) (board_edge : Vec → Bool)
    (vias : List Via) (tht_pads : List Pad) (masks : List Dwg) (dwgs : List Dwg)
    (cx cy : ℚ) (pos : ℚ × ℚ) (st : PosState) :
    (objective cfg b fpIdx isRef moduleIds board_edge vias tht_pads masks dwgs
      cx cy pos st).1.pen = 0 →
    ∃ v, mkVec32 (fromMM pos.1) (fromMM pos.2) = some v ∧
      is_position_valid cfg b (setPos st fpIdx isRef v) fpIdx isRef moduleIds
        board_edge vias tht_pads masks dwgs = true := by
  unfold objective
  cases hm : mkVec32 (fromMM pos.1) (fromMM pos.2) with
  | none =>
      simp only [hm]
      intro h
      exact absurd h (by norm_num [INF_ERROR_VALUE])
  | some v =>
      simp only [hm]
      by_cases hb : bb_in_shape_poly_set (labelBB v (itemData b fpIdx isRef))
          board_edge true
      · simp only [hb, Bool.not_true, Bool.false_eq_true, if_false]
        by_cases hv : is_position_valid cfg b (setPos st fpIdx isRef v) fpIdx isRef
            moduleIds board_edge vias tht_pads masks dwgs
        · simp only [hv, if_true]
          intro _
          exact ⟨v, rfl, hv⟩
        · simp only [hv, if_false]
          intro h
          exact absurd h (by norm_num [INF_ERROR_VALUE])
      · simp only [Bool.not_eq_true] at hb
        simp only [hb, Bool.not_false, if_true]
        intro h
        exact absurd h (by norm_num [INF_ERROR_VALUE])

theorem bestOf_mem : ∀ (l : List ((ℚ × ℚ) × ObjVal)) (acc : (ℚ × ℚ) × ObjVal),
    bestOf acc l = acc ∨ bestOf acc l ∈ l := by
  intro l
  induction l with
  | nil => intro acc; exact Or.inl rfl
  | cons x rest ih =>
      intro acc
      unfold bestOf
      rcases ih (if x.2.ltB acc.2 then x else acc) with h | h
      · rw [h]
        by_cases hc : x.2.ltB acc.2
        · rw [if_pos hc]
          exact Or.inr (List.mem_cons_self x rest)
        · rw [if_neg hc]
          exact Or.inl rfl
      · exact Or.inr (List.mem_cons_of_mem x h)

/-- An infeasible value (`pen = 10^6`) never passes the `1e5` success
threshold: `√d < (10^5 - 10^6) + √0` is false. -/
theorem ltB_threshold_pen (v : ObjVal) (h : v.pen = INF_ERROR_VALUE) :
    v.ltB ⟨100000, 0⟩ = false := by
  unfold ObjVal.ltB sqrtLtB
  rw [h]
  norm_num [INF_ERROR_VALUE]

/-- `place_field_annealing`, unpacked: its result is always `.ok`, failure
restores the initial state, success commits the best trial's encoded
position, which the Validity Predicate accepted. -/
theorem place_field_annealing_cases (cfg : SilkscreenConfig) (b : Board)
    (st : PosState) (fpIdx : Nat) (isRef : Bool) (moduleIds : List Nat)
    (board_edge : Vec → Bool) (vias : List Via) (tht_pads : List Pad)
    (masks : List Dwg) (dwgs : List Dwg) (trials : List (ℚ × ℚ)) :
    place_field_annealing cfg b st fpIdx isRef moduleIds board_edge vias tht_pads
        masks dwgs trials = .ok (false, st) ∨
    ∃ v, place_field_annealing cfg b st fpIdx isRef moduleIds board_edge vias
        tht_pads masks dwgs trials = .ok (true, setPos st fpIdx isRef v) ∧
      is_position_valid cfg b (setPos st fpIdx isRef v) fpIdx isRef moduleIds
        board_edge vias tht_pads masks dwgs = true := by
  unfold place_field_annealing
  dsimp only
  rw [evalTrials_state_eq, evalTrials_fst]
  cases htr : trials with
  | nil =>
      left
      simp [setPos_getPos_self]
  | cons p rest =>
      simp only [List.map_cons]
      set e := (p, (objective cfg b fpIdx isRef moduleIds board_edge vias tht_pads
        masks dwgs (toMM (b.fps.getD fpIdx default).bb.GetCenter.x)
        (toMM (b.fps.getD fpIdx default).bb.GetCenter.y) p st).1) with he
      set lrest := rest.map (fun q =>
        (q, (objective cfg b fpIdx isRef moduleIds board_edge vias tht_pads
          masks dwgs (toMM (b.fps.getD fpIdx default).bb.GetCenter.x)
          (toMM (b.fps.getD fpIdx default).bb.GetCenter.y) q st).1)) with hl
      by_cases hth : (bestOf e lrest).2.ltB ⟨100000, 0⟩
      · right
        -- the best evaluated pair: its value is the objective at its point
        have hmem : bestOf e lrest = e ∨ bestOf e lrest ∈ lrest := bestOf_mem lrest e
        have hbest : ∃ q, (bestOf e lrest).1 = q ∧
            (bestOf e lrest).2 = (objective cfg b fpIdx isRef moduleIds board_edge
              vias tht_pads masks dwgs
              (toMM (b.fps.getD fpIdx default).bb.GetCenter.x)
              (toMM (b.fps.getD fpIdx default).bb.GetCenter.y) q st).1 := by
          rcases hmem with hmem | hmem
          · exact ⟨p, by rw [hmem, he], by rw [hmem, he]⟩
          · rw [hl] at hmem
            rcases List.mem_map.mp hmem with ⟨q, _, hq⟩
            exact ⟨q, by rw [← hq], by rw [← hq]⟩
        rcases hbest with ⟨q, hq1, hq2⟩
        have hpen : (bestOf e lrest).2.pen = 0 := by
          rcases objective_pen_cases cfg b fpIdx isRef moduleIds board_edge vias
            tht_pads masks dwgs
            (toMM (b.fps.getD fpIdx default).bb.GetCenter.x)
            (toMM (b.fps.getD fpIdx default).bb.GetCenter.y) q st with hc | hc
          · rw [hq2]; exact hc
          · exfalso
            have : (bestOf e lrest).2.ltB ⟨100000, 0⟩ = false :=
              ltB_threshold_pen _ (by rw [hq2]; exact hc)
            rw [this] at hth
            exact Bool.false_ne_true hth
        have hzero : (objective cfg b fpIdx isRef moduleIds board_edge vias
            tht_pads masks dwgs
            (toMM (b.fps.getD fpIdx default).bb.GetCenter.x)
            (toMM (b.fps.getD fpIdx default).bb.GetCenter.y) q st).1.pen = 0 := by
          rw [← hq2]; exact hpen
        rcases objective_pen_zero cfg b fpIdx isRef moduleIds board_edge vias
          tht_pads masks dwgs _ _ q st hzero with ⟨v, hv, hvalid⟩
        refine ⟨v, ?_, hvalid⟩
        rw [if_pos hth, hq1, hv]
      · left
        rw [if_neg hth]
        rw [setPos_getPos_self]

theorem place_field_brute_force_fail (cfg : SilkscreenConfig) (b : Board)
    (st : PosState) (fpIdx : Nat) (isRef : Bool) (moduleIds : List Nat)
    (board_edge : Vec → Bool) (vias : List Via) (tht_pads : List Pad)
    (masks : List Dwg) (dwgs : List Dwg) (st' : PosState) :
    place_field_brute_force cfg b st fpIdx isRef moduleIds board_edge vias
      tht_pads masks dwgs = .ok (false, st') → st' = st := by
  unfold place_field_brute_force
  dsimp only
  cases hs : searchLoop cfg b fpIdx isRef moduleIds board_edge vias tht_pads masks
      dwgs (toMM (b.fps.getD fpIdx default).bb.GetCenter.x)
      (toMM (b.fps.getD fpIdx default).bb.GetCenter.y)
      (brute_candidates cfg.max_allowed_distance cfg.step_size
        (toMM (b.fps.getD fpIdx default).bb.GetWidth)) st with
  | error e =>
      intro h
      exact absurd h (by simp)
  | ok p =>
      obtain ⟨res, stL⟩ := p
      cases res with
      | some v =>
          intro h
          simp only [Except.ok.injEq, Prod.mk.injEq] at h
          exact absurd h.1 (by simp)
      | none =>
          intro h
          simp only [Except.ok.injEq, Prod.mk.injEq] at h
          rw [← h.2]
          rw [searchLoop_setPos cfg b fpIdx isRef moduleIds board_edge vias tht_pads
            masks dwgs _ _ _ _ _ _ hs]
          exact setPos_getPos_self st fpIdx isRef

theorem place_field_brute_force_success (cfg : SilkscreenConfig) (b : Board)
    (st : PosState) (fpIdx : Nat) (isRef : Bool) (moduleIds : List Nat)
    (board_edge : Vec → Bool) (vias : List Via) (tht_pads : List Pad)
    (masks : List Dwg) (dwgs : List Dwg) (st' : PosState) :
    place_field_brute_force cfg b st fpIdx isRef moduleIds board_edge vias
      tht_pads masks dwgs = .ok (true, st') →
    ∃ v, st' = setPos st fpIdx isRef v ∧
      is_position_valid cfg b (setPos st fpIdx isRef v) fpIdx isRef moduleIds
        board_edge vias tht_pads masks dwgs = true := by
  unfold place_field_brute_force
  dsimp only
  cases hs : searchLoop cfg b fpIdx isRef moduleIds board_edge vias tht_pads masks
      dwgs (toMM (b.fps.getD fpIdx default).bb.GetCenter.x)
      (toMM (b.fps.getD fpIdx default).bb.GetCenter.y)
      (brute_candidates cfg.max_allowed_distance cfg.step_size
        (toMM (b.fps.getD fpIdx default).bb.GetWidth)) st with
  | error e =>
      intro h
      exact absurd h (by simp)
  | ok p =>
      obtain ⟨res, stL⟩ := p
      cases res with
      | none =>
          intro h
          simp only [Except.ok.injEq, Prod.mk.injEq] at h
          exact absurd h.1 (by simp)
      | some v =>
          intro h
          simp only [Except.ok.injEq, Prod.mk.injEq] at h
          rcases searchLoop_found cfg b fpIdx isRef moduleIds board_edge vias
            tht_pads masks dwgs _ _ _ _ _ _ hs with ⟨hst, hvalid⟩
          refine ⟨v, ?_, hvalid⟩
          rw [← h.2, hst, setPos_setPos]

theorem place_field_annealing_fail (cfg : SilkscreenConfig) (b : Board)
    (st : PosState) (fpIdx : Nat) (isRef : Bool) (moduleIds : List Nat)
    (board_edge : Vec → Bool) (vias : List Via) (tht_pads : List Pad)
    (masks : List Dwg) (dwgs : List Dwg) (trials : List (ℚ × ℚ)) (st' : PosState) :
    place_field_annealing cfg b st fpIdx isRef moduleIds board_edge vias tht_pads
      masks dwgs trials = .ok (false, st') → st' = st := by
  intro h
  rcases place_field_annealing_cases cfg b st fpIdx isRef moduleIds board_edge
    vias tht_pads masks dwgs trials with hc | ⟨v, hc, _⟩
  · rw [hc] at h
    simp only [Except.ok.injEq, Prod.mk.injEq] at h
    rw [h.2]
  · rw [hc] at h
    simp only [Except.ok.injEq, Prod.mk.injEq] at h
    exact absurd h.1 (by simp)

theorem place_field_annealing_success (cfg : SilkscreenConfig) (b : Board)
    (st : PosState) (fpIdx : Nat) (isRef : Bool) (moduleIds : List Nat)
    (board_edge : Vec → Bool) (vias : List Via) (tht_pads : List Pad)
    (masks : List Dwg) (dwgs : List Dwg) (trials : List (ℚ × ℚ)) (st' : PosState) :
    place_field_annealing cfg b st fpIdx isRef moduleIds board_edge vias tht_pads
      masks dwgs trials = .ok (true, st') →
    ∃ v, st' = setPos st fpIdx isRef v ∧
      is_position_valid cfg b (setPos st fpIdx isRef v) fpIdx isRef moduleIds
        board_edge vias tht_pads masks dwgs = true := by
  intro h
  rcases place_field_annealing_cases cfg b st fpIdx isRef moduleIds board_edge
    vias tht_pads masks dwgs trials with hc | ⟨v, hc, hvalid⟩
  · rw [hc] at h
    simp only [Except.ok.injEq, Prod.mk.injEq] at h
    exact absurd h.1 (by simp)
  · rw [hc] at h
    simp only [Except.ok.injEq, Prod.mk.injEq] at h
    exact ⟨v, h.2.symm, hvalid⟩

theorem place_field_annealing_no_error (cfg : SilkscreenConfig) (b : Board)
    (st : PosState) (fpIdx : Nat) (isRef : Bool) (moduleIds : List Nat)
    (board_edge : Vec → Bool) (vias : List Via) (tht_pads : List Pad)
    (masks : List Dwg) (dwgs : List Dwg) (trials : List (ℚ × ℚ)) :
    place_field_annealing cfg b st fpIdx isRef moduleIds board_edge vias tht_pads
      masks dwgs trials ≠ .error () := by
  rcases place_field_annealing_cases cfg b st fpIdx isRef moduleIds board_edge
    vias tht_pads masks dwgs trials with hc | ⟨v, hc, _⟩ <;> rw [hc] <;> simp

/-- An overflowing trial point is scored `INF_ERROR_VALUE` and leaves the
state untouched. -/
theorem objective_overflow (cfg : SilkscreenConfig) (b : Board) (fpIdx : Nat)
    (isRef : Bool) (moduleIds : List Nat) (board_edge : Vec → Bool)
    (vias : List Via) (tht_pads : List Pad) (masks : List Dwg) (dwgs : List Dwg)
    (cx cy : ℚ) (pos : ℚ × ℚ) (st : PosState)
    (h : mkVec32 (fromMM pos.1) (fromMM pos.2) = none) :
    objective cfg b fpIdx isRef moduleIds board_edge vias tht_pads masks dwgs
      cx cy pos st = (⟨INF_ERROR_VALUE, 0⟩, st) := by
  unfold objective
  dsimp only
  rw [h]
  simp [setPos_getPos_self]

theorem moduleOK_true_iff (b : Board) (st : PosState) (fpIdx : Nat) (isRef : Bool)
    (bbItem : Box) (itemShape : Option Box) (itemLayer : Layer) (i : Nat) :
    moduleOK b st fpIdx isRef bbItem itemShape itemLayer i = true ↔
      refLabelConflict b st fpIdx isRef bbItem itemLayer i = false ∧
      valueLabelConflict b st fpIdx isRef bbItem itemLayer i = false ∧
      collideOpt ((b.fps.getD i default).GetCourtyard itemLayer) itemShape = false := by
  unfold moduleOK
  simp [Bool.and_eq_true, Bool.not_eq_true', and_assoc]

/-- Decomposition of the Validity Predicate into its seven checks, with
the box each one uses made explicit: the outline check, the label-label
checks, the via check and the pad check all use the top-left-anchored
deflated box; the courtyard, mask and drawing checks use the undeflated
effective shape. -/
theorem is_position_valid_decomp (cfg : SilkscreenConfig) (b : Board) (st : PosState)
    (fpIdx : Nat) (isRef : Bool) (moduleIds : List Nat) (board_edge : Vec → Bool)
    (vias : List Via) (tht_pads : List Pad) (masks : List Dwg) (drawings : List Dwg) :
    is_position_valid cfg b st fpIdx isRef moduleIds board_edge vias tht_pads masks
        drawings = true ↔
      (bb_in_shape_poly_set
          (deflateBB (labelBB (getPos st fpIdx isRef) (itemData b fpIdx isRef))
            cfg.deflate_factor) board_edge true = true ∧
       (∀ i ∈ moduleIds,
          refLabelConflict b st fpIdx isRef
            (deflateBB (labelBB (getPos st fpIdx isRef) (itemData b fpIdx isRef))
              cfg.deflate_factor) (itemData b fpIdx isRef).layer i = false ∧
          valueLabelConflict b st fpIdx isRef
            (deflateBB (labelBB (getPos st fpIdx isRef) (itemData b fpIdx isRef))
              cfg.deflate_factor) (itemData b fpIdx isRef).layer i = false ∧
          collideOpt ((b.fps.getD i default).GetCourtyard (itemData b fpIdx isRef).layer)
            (labelShape (getPos st fpIdx isRef) (itemData b fpIdx isRef)) = false) ∧
       (∀ via ∈ vias, viaOK
          (deflateBB (labelBB (getPos st fpIdx isRef) (itemData b fpIdx isRef))
            cfg.deflate_factor) (itemData b fpIdx isRef).layer via = true) ∧
       (∀ pad ∈ tht_pads, padOK
          (deflateBB (labelBB (getPos st fpIdx isRef) (itemData b fpIdx isRef))
            cfg.deflate_factor) pad = true) ∧
       (∀ mask ∈ masks, maskOK
          (labelShape (getPos st fpIdx isRef) (itemData b fpIdx isRef))
          (itemData b fpIdx isRef) mask = true) ∧
       (∀ d ∈ drawings, dwgOK
          (labelShape (getPos st fpIdx isRef) (itemData b fpIdx isRef))
          (itemData b fpIdx isRef).layer d = true)) := by
  unfold is_position_valid
  dsimp only
  by_cases hbb : bb_in_shape_poly_set
      (deflateBB (labelBB (getPos st fpIdx isRef) (itemData b fpIdx isRef))
        cfg.deflate_factor) board_edge true
  · simp only [hbb, Bool.not_true, Bool.false_eq_true, if_false, Bool.and_eq_true,
      List.all_eq_true, moduleOK_true_iff, true_and]
    tauto
  · simp only [Bool.not_eq_true] at hbb
    simp only [hbb, Bool.not_false, if_true, Bool.false_eq_true, false_and]

theorem refLabelConflict_eq_spec (b : Board) (st : PosState) (fpIdx : Nat)
    (isRef : Bool) (bbItem : Box) (itemLayer : Layer) (i : Nat) :
    refLabelConflict b st fpIdx isRef bbItem itemLayer i =
      refLabelConflict_spec b st fpIdx isRef bbItem itemLayer i := by
  unfold refLabelConflict refLabelConflict_spec
  cases isRef
  · simp
  · simp

theorem valueLabelConflict_eq_spec (b : Board) (st : PosState) (fpIdx : Nat)
    (isRef : Bool) (bbItem : Box) (itemLayer : Layer) (i : Nat) :
    valueLabelConflict b st fpIdx isRef bbItem itemLayer i =
      valueLabelConflict_spec b st fpIdx isRef bbItem itemLayer i := by
  unfold valueLabelConflict valueLabelConflict_spec
  cases isRef
  · simp only [Bool.not_false, Bool.true_and, Bool.or_false, if_neg Bool.false_ne_true]
    rw [Bool.and_comm (is_silkscreen_text (b.fps.getD i default).val)
      (decide (fpIdx ≠ i))]
  · simp

/-- C4: in the Validity Predicate, when placing a Reference the owning
component is skipped for other components' Reference-label checks but not
for Value-label checks, and symmetrically when placing a Value; any
same-layer bounding-box intersection with a non-skipped visible label
makes the predicate return false. -/
theorem C4_label_self_exclusion (cfg : SilkscreenConfig) (b : Board) (st : PosState)
    (fpIdx : Nat) (isRef : Bool) (moduleIds : List Nat) (board_edge : Vec → Bool)
    (vias : List Via) (tht_pads : List Pad) (masks : List Dwg) (drawings : List Dwg)
    (bbItem : Box) (itemLayer : Layer) (i : Nat) :
    (refLabelConflict b st fpIdx isRef bbItem itemLayer i =
        refLabelConflict_spec b st fpIdx isRef bbItem itemLayer i ∧
     valueLabelConflict b st fpIdx isRef bbItem itemLayer i =
        valueLabelConflict_spec b st fpIdx isRef bbItem itemLayer i) ∧
    (is_position_valid cfg b st fpIdx isRef moduleIds board_edge vias tht_pads
        masks drawings = true →
      ∀ j ∈ moduleIds,
        refLabelConflict_spec b st fpIdx isRef
          (deflateBB (labelBB (getPos st fpIdx isRef) (itemData b fpIdx isRef))
            cfg.deflate_factor) (itemData b fpIdx isRef).layer j = false ∧
        valueLabelConflict_spec b st fpIdx isRef
          (deflateBB (labelBB (getPos st fpIdx isRef) (itemData b fpIdx isRef))
            cfg.deflate_factor) (itemData b fpIdx isRef).layer j = false) := by
  constructor
  · exact ⟨refLabelConflict_eq_spec b st fpIdx isRef bbItem itemLayer i,
      valueLabelConflict_eq_spec b st fpIdx isRef bbItem itemLayer i⟩
  · intro h j hj
    rcases ((is_position_valid_decomp cfg b st fpIdx isRef moduleIds board_edge vias
      tht_pads masks drawings).mp h).2.1 j hj with ⟨h1, h2, _⟩
    rw [← refLabelConflict_eq_spec, ← valueLabelConflict_eq_spec]
    exact ⟨h1, h2⟩

theorem C4_label_self_exclusion_witness :
    refLabelConflict_spec boardA stAF 0 true
      (deflateBB (labelBB (getPos stAF 0 true) (itemData boardA 0 true))
        cfgGrid.deflate_factor) (itemData boardA 0 true).layer 0 = false ∧
    valueLabelConflict_spec boardA stAF 0 true
      (deflateBB (labelBB (getPos stAF 0 true) (itemData boardA 0 true))
        cfgGrid.deflate_factor) (itemData boardA 0 true).layer 0 = false :=
  (C4_label_self_exclusion cfgGrid boardA stAF 0 true [0] boardA.outline [] [] [] []
    (deflateBB (labelBB (getPos stAF 0 true) (itemData boardA 0 true))
      cfgGrid.deflate_factor) (itemData boardA 0 true).layer 0).2
    (by decide) 0 (by decide)

/-- C2: for any label, any board and either placement strategy, if the
placement call returns failure then the position state after the call is
bit-for-bit equal to the state before the call. -/
theorem C2_failure_restores (cfg : SilkscreenConfig) (b : Board) (st : PosState)
    (fpIdx : Nat) (isRef : Bool) (moduleIds : List Nat) (board_edge : Vec → Bool)
    (vias : List Via) (tht_pads : List Pad) (masks : List Dwg) (dwgs : List Dwg)
    (trials : List (ℚ × ℚ)) (st1 st2 : PosState) :
    (place_field_brute_force cfg b st fpIdx isRef moduleIds board_edge vias
        tht_pads masks dwgs = .ok (false, st1) → st1 = st) ∧
    (place_field_annealing cfg b st fpIdx isRef moduleIds board_edge vias tht_pads
        masks dwgs trials = .ok (false, st2) → st2 = st) :=
  ⟨place_field_brute_force_fail cfg b st fpIdx isRef moduleIds board_edge vias
      tht_pads masks dwgs st1,
   place_field_annealing_fail cfg b st fpIdx isRef moduleIds board_edge vias
      tht_pads masks dwgs trials st2⟩

theorem C2_failure_restores_witness :
    (place_field_brute_force cfgGrid boardF stF0 0 true [0] boardF.outline [] [] []
        [] = .ok (false, stF0)) ∧
    stF0 = stF0 ∧ stF0 = stF0 :=
  ⟨by decide,
   (C2_failure_restores cfgGrid boardF stF0 0 true [0] boardF.outline [] [] [] []
      [] stF0 stF0).1 (by decide),
   (C2_failure_restores cfgAnneal boardF stF0 0 true [0] boardF.outline [] [] [] []
      [(0, 0)] stF0 stF0).2 (by decide)⟩

/-- C8: every evaluation of the stochastic objective leaves the position
state exactly as it was when the evaluation began, on every exit path,
and therefore repeated evaluations observe the same board state. -/
theorem C8_objective_pure (cfg : SilkscreenConfig) (b : Board) (fpIdx : Nat)
    (isRef : Bool) (moduleIds : List Nat) (board_edge : Vec → Bool)
    (vias : List Via) (tht_pads : List Pad) (masks : List Dwg) (dwgs : List Dwg)
    (cx cy : ℚ) (pos : ℚ × ℚ) (trials : List (ℚ × ℚ)) (st : PosState) :
    (objective cfg b fpIdx isRef moduleIds board_edge vias tht_pads masks dwgs
      cx cy pos st).2 = st ∧
    (evalTrials cfg b fpIdx isRef moduleIds board_edge vias tht_pads masks dwgs
      cx cy trials st).2 = st :=
  ⟨objective_state_eq cfg b fpIdx isRef moduleIds board_edge vias tht_pads masks
      dwgs cx cy pos st,
   evalTrials_state_eq cfg b fpIdx isRef moduleIds board_edge vias tht_pads masks
      dwgs cx cy trials st⟩

/-- C7 (amended): in the stochastic strategy a candidate whose coordinates
overflow the representable range is scored `INF_ERROR_VALUE` (rejected as
infeasible) with the state untouched, and the annealing placement call
never aborts; the grid strategy has no such guard (see the
counterexample). -/
theorem C7_overflow_amended (cfg : SilkscreenConfig) (b : Board) (fpIdx : Nat)
    (isRef : Bool) (moduleIds : List Nat) (board_edge : Vec → Bool)
    (vias : List Via) (tht_pads : List Pad) (masks : List Dwg) (dwgs : List Dwg)
    (cx cy : ℚ) (pos : ℚ × ℚ) (st st0 : PosState) (trials : List (ℚ × ℚ)) :
    (mkVec32 (fromMM pos.1) (fromMM pos.2) = none →
      objective cfg b fpIdx isRef moduleIds board_edge vias tht_pads masks dwgs
        cx cy pos st = (⟨INF_ERROR_VALUE, 0⟩, st)) ∧
    place_field_annealing cfg b st0 fpIdx isRef moduleIds board_edge vias tht_pads
      masks dwgs trials ≠ .error () :=
  ⟨objective_overflow cfg b fpIdx isRef moduleIds board_edge vias tht_pads masks
      dwgs cx cy pos st,
   place_field_annealing_no_error cfg b st0 fpIdx isRef moduleIds board_edge vias
      tht_pads masks dwgs trials⟩

theorem C7_overflow_amended_witness :
    objective cfgAnneal boardC7 0 true [0] boardC7.outline [] [] [] [] 0 0
      (214848/100, 0) stC7 = (⟨INF_ERROR_VALUE, 0⟩, stC7) :=
  (C7_overflow_amended cfgAnneal boardC7 0 true [0] boardC7.outline [] [] [] []
    0 0 (214848/100, 0) stC7 stC7 []).1 (by decide)

/-- C7 counterexample: the grid strategy does not treat coordinate overflow
as an infeasible candidate — on this board the placement call aborts with
the uncaught overflow error. -/
theorem C7_overflow_counterexample :
    place_field_brute_force cfgGrid boardC7 stC7 0 true [0] boardC7.outline []
      [] [] [] = .error () := by
  decide

/-- C1 (amended): for either strategy, whenever the placement call returns
success the final state moves only the placed label, and the final
position passes every check of the Validity Predicate — including
containment of the deflated bounding box in the board outline — evaluated
against the obstacle lists supplied to the call (the pruned lists).
Against the full unpruned lists the checks can fail (see the
counterexample). -/
theorem C1_amended_containment (cfg : SilkscreenConfig) (b : Board) (st : PosState)
    (fpIdx : Nat) (isRef : Bool) (moduleIds : List Nat) (board_edge : Vec → Bool)
    (vias : List Via) (tht_pads : List Pad) (masks : List Dwg) (dwgs : List Dwg)
    (trials : List (ℚ × ℚ)) (st1 st2 : PosState) :
    (place_field_brute_force cfg b st fpIdx isRef moduleIds board_edge vias
        tht_pads masks dwgs = .ok (true, st1) →
      ∃ v, st1 = setPos st fpIdx isRef v ∧
        is_position_valid cfg b st1 fpIdx isRef moduleIds board_edge vias tht_pads
          masks dwgs = true) ∧
    (place_field_annealing cfg b st fpIdx isRef moduleIds board_edge vias tht_pads
        masks dwgs trials = .ok (true, st2) →
      ∃ v, st2 = setPos st fpIdx isRef v ∧
        is_position_valid cfg b st2 fpIdx isRef moduleIds board_edge vias tht_pads
          masks dwgs = true) := by
  constructor
  · intro h
    rcases place_field_brute_force_success cfg b st fpIdx isRef moduleIds
      board_edge vias tht_pads masks dwgs st1 h with ⟨v, hst, hval⟩
    refine ⟨v, hst, ?_⟩
    rw [hst]
    exact hval
  · intro h
    rcases place_field_annealing_success cfg b st fpIdx isRef moduleIds board_edge
      vias tht_pads masks dwgs trials st2 h with ⟨v, hst, hval⟩
    refine ⟨v, hst, ?_⟩
    rw [hst]
    exact hval

theorem C1_amended_containment_witness :
    (∃ v, stAF = setPos stA0 0 true v ∧
      is_position_valid cfgGrid boardA stAF 0 true [0] boardA.outline [] [] [] []
        = true) ∧
    (∃ v, stAF = setPos stA0 0 true v ∧
      is_position_valid cfgAnneal boardA stAF 0 true [0] boardA.outline [] [] [] []
        = true) :=
  ⟨(C1_amended_containment cfgGrid boardA stA0 0 true [0] boardA.outline [] [] []
      [] [] stAF stAF).1 (by decide),
   (C1_amended_containment cfgAnneal boardA stA0 0 true [0] boardA.outline [] [] []
      [] [(0, 0)] stAF stAF).2 (by decide)⟩

/-- C5 counterexample: with a deflation factor of 1/2, the code's
`is_position_valid` accepts a position although a through-hole pad
intersects the label's undeflated bounding box (the pad check ran on the
deflated box), so the predicate differs from claim C5's description; and
the code's deflation (`SetSize`) keeps the top-left corner, not the
center. -/
theorem C5_deflation_counterexample :
    is_position_valid cfgDeflate boardC5 stC5 0 true [0] boardC5.outline []
      (tht_pads_all boardC5) [] [] = true ∧
    is_position_valid_C5spec cfgDeflate boardC5 stC5 0 true [0] boardC5.outline []
      (tht_pads_all boardC5) [] [] = false ∧
    (deflateBB (labelBB (getPos stC5 0 true) (itemData boardC5 0 true))
        cfgDeflate.deflate_factor).GetCenter ≠
      (labelBB (getPos stC5 0 true) (itemData boardC5 0 true)).GetCenter :=
  ⟨by decide, by decide, by decide⟩

/-- C5 (amended): the deflation factor shrinks the label's bounding box
about its top-left corner, and the deflated box is used for the
outline-containment check and for every bounding-box obstacle check
(other labels, vias, through-hole pads); the courtyard, mask and drawing
checks use the label's undeflated effective shape. -/
theorem C5_deflation_amended (cfg : SilkscreenConfig) (b : Board) (st : PosState)
    (fpIdx : Nat) (isRef : Bool) (moduleIds : List Nat) (board_edge : Vec → Bool)
    (vias : List Via) (tht_pads : List Pad) (masks : List Dwg) (drawings : List Dwg) :
    is_position_valid cfg b st fpIdx isRef moduleIds board_edge vias tht_pads masks
        drawings = true ↔
      (bb_in_shape_poly_set
          (deflateBB (labelBB (getPos st fpIdx isRef) (itemData b fpIdx isRef))
            cfg.deflate_factor) board_edge true = true ∧
       (∀ i ∈ moduleIds,
          refLabelConflict b st fpIdx isRef
            (deflateBB (labelBB (getPos st fpIdx isRef) (itemData b fpIdx isRef))
              cfg.deflate_factor) (itemData b fpIdx isRef).layer i = false ∧
          valueLabelConflict b st fpIdx isRef
            (deflateBB (labelBB (getPos st fpIdx isRef) (itemData b fpIdx isRef))
              cfg.deflate_factor) (itemData b fpIdx isRef).layer i = false ∧
          collideOpt ((b.fps.getD i default).GetCourtyard (itemData b fpIdx isRef).layer)
            (labelShape (getPos st fpIdx isRef) (itemData b fpIdx isRef)) = false) ∧
       (∀ via ∈ vias, viaOK
          (deflateBB (labelBB (getPos st fpIdx isRef) (itemData b fpIdx isRef))
            cfg.deflate_factor) (itemData b fpIdx isRef).layer via = true) ∧
       (∀ pad ∈ tht_pads, padOK
          (deflateBB (labelBB (getPos st fpIdx isRef) (itemData b fpIdx isRef))
            cfg.deflate_factor) pad = true) ∧
       (∀ mask ∈ masks, maskOK
          (labelShape (getPos st fpIdx isRef) (itemData b fpIdx isRef))
          (itemData b fpIdx isRef) mask = true) ∧
       (∀ d ∈ drawings, dwgOK
          (labelShape (getPos st fpIdx isRef) (itemData b fpIdx isRef))
          (itemData b fpIdx isRef).layer d = true)) :=
  is_position_valid_decomp cfg b st fpIdx isRef moduleIds board_edge vias tht_pads
    masks drawings

theorem C5_deflation_amended_witness :
    bb_in_shape_poly_set
      (deflateBB (labelBB (getPos stC5 0 true) (itemData boardC5 0 true))
        cfgDeflate.deflate_factor) boardC5.outline true = true ∧
    (∀ pad ∈ tht_pads_all boardC5, padOK
      (deflateBB (labelBB (getPos stC5 0 true) (itemData boardC5 0 true))
        cfgDeflate.deflate_factor) pad = true) :=
  let h := (C5_deflation_amended cfgDeflate boardC5 stC5 0 true [0] boardC5.outline
    [] (tht_pads_all boardC5) [] []).mp (by decide)
  ⟨h.1, h.2.2.2.1⟩

/-- C6: the Spatial Pruner keeps a candidate iff the Euclidean distance
between the query center and the candidate's bounding-box center is
strictly less than the radius plus the candidate's bounding-box diagonal,
and it preserves the relative order of the kept candidates (the result is
a sublist of the input). -/
theorem C6_pruner_spec {α : Type} (bbOf : α → Box) (c : Vec) (m : ℚ) (xs : List α) :
    (filter_distance bbOf c m xs).Sublist xs ∧
    ∀ o, o ∈ filter_distance bbOf c m xs ↔ o ∈ xs ∧ keepR bbOf c (m : ℝ) o := by
  rw [filter_distance_eq_filter]
  refine ⟨List.filter_sublist xs, ?_⟩
  intro o
  rw [List.mem_filter]
  constructor
  · rintro ⟨h1, h2⟩
    exact ⟨h1, (keepR_iff_sqrtLtB bbOf c m o).mpr h2⟩
  · rintro ⟨h1, h2⟩
    exact ⟨h1, (keepR_iff_sqrtLtB bbOf c m o).mp h2⟩

/-- C10: the all-in variant of the outline containment test is decided by
exactly five point tests — the four corners and the center of the box —
so a box whose edge leaves a non-convex outline between those points is
still accepted: the box `bbC10` is accepted inside the square-with-hole
outline `polyC10` although its edge point (6,6) lies outside. -/
theorem C10_five_point_containment :
    (∀ (bb : Box) (poly : Vec → Bool),
      bb_in_shape_poly_set bb poly true = true ↔
        (poly ⟨bb.GetLeft, bb.GetTop⟩ = true ∧ poly ⟨bb.GetRight, bb.GetTop⟩ = true ∧
         poly ⟨bb.GetLeft, bb.GetBottom⟩ = true ∧
         poly ⟨bb.GetRight, bb.GetBottom⟩ = true ∧
         poly ⟨bb.GetCenter.x, bb.GetCenter.y⟩ = true)) ∧
    bb_in_shape_poly_set bbC10 polyC10 true = true ∧
    polyC10 ⟨6, 6⟩ = false ∧
    bbC10.GetLeft ≤ 6 ∧ (6 : Int) ≤ bbC10.GetRight ∧
    bbC10.GetTop ≤ 6 ∧ (6 : Int) ≤ bbC10.GetBottom := by
  constructor
  · intro bb poly
    unfold bb_in_shape_poly_set
    simp [Bool.and_eq_true, and_assoc]
  · exact ⟨by decide, by decide, by decide, by decide, by decide, by decide⟩

theorem sqrt_rat_of_sq (A q : ℚ) (h : q * q = A) (hq : 0 ≤ q) :
    Real.sqrt ((A : ℚ) : ℝ) = (q : ℝ) := by
  have hcast : ((A : ℚ) : ℝ) = (q : ℝ) * (q : ℝ) := by
    rw [← h]
    push_cast
    ring
  rw [hcast, Real.sqrt_mul_self (by exact_mod_cast hq)]

/-- An item at zero distance from the query center is always kept by the
pruner, for any positive radius. -/
theorem keepR_of_distSq_zero {α : Type} (bbOf : α → Box) (c : Vec) (o : α) (r : ℝ)
    (h : distSq c ((bbOf o).GetCenter) = 0) (hr : 0 < r) : keepR bbOf c r o := by
  unfold keepR
  rw [h]
  rw [show (((0 : ℚ)) : ℝ) = (0 : ℝ) from by norm_num, Real.sqrt_zero]
  have hnn := Real.sqrt_nonneg ((diagSq (bbOf o) : ℚ) : ℝ)
  linarith

/-- The orchestrator's pruning radius is positive whenever the configured
maximum distance is. -/
theorem maxFpSize_pos (cfg : SilkscreenConfig) (fp : Fp) (r : ℝ)
    (h : MaxFpSize cfg fp r) (hd : 0 < fromMM cfg.max_allowed_distance) : 0 < r := by
  unfold MaxFpSize at h
  have h1 := Real.sqrt_nonneg ((diagSq fp.bb : ℚ) : ℝ)
  have h2 := Real.sqrt_nonneg ((diagSq (labelBB ⟨0, 0⟩ fp.ref) : ℚ) : ℝ)
  have h3 := Real.sqrt_nonneg ((diagSq (labelBB ⟨0, 0⟩ fp.val) : ℚ) : ℝ)
  have hd' : (0 : ℝ) < ((fromMM cfg.max_allowed_distance : Int) : ℝ) := by
    exact_mod_cast hd
  rw [h]
  split
  · have h4 : (0 : ℝ) ≤ max (Real.sqrt ((diagSq (labelBB ⟨0, 0⟩ fp.ref) : ℚ) : ℝ))
        (Real.sqrt ((diagSq (labelBB ⟨0, 0⟩ fp.val) : ℚ) : ℝ)) :=
      le_trans h2 (le_max_left _ _)
    linarith
  · split
    · linarith
    · split
      · linarith
      · linarith

theorem placeField_grid (cfg : SilkscreenConfig) (hm : ¬(cfg.method = "anneal")) :
    ∀ (b : Board) (st : PosState) (fpIdx : Nat) (isRef : Bool) (moduleIds : List Nat)
      (board_edge : Vec → Bool) (vias : List Via) (tht_pads : List Pad)
      (masks : List Dwg) (dwgs : List Dwg) (trials : List (ℚ × ℚ)),
      placeField cfg b st fpIdx isRef moduleIds board_edge vias tht_pads masks dwgs
        trials =
      place_field_brute_force cfg b st fpIdx isRef moduleIds board_edge vias
        tht_pads masks dwgs := by
  intro b st fpIdx isRef moduleIds board_edge vias tht_pads masks dwgs trials
  unfold placeField
  rw [if_neg hm]

/-- With the grid strategy selected, footprint processing is independent
of the stochastic trial oracle. -/
theorem processFp_grid_trials (cfg : SilkscreenConfig) (hm : ¬(cfg.method = "anneal"))
    (b : Board) (fpIdx : Nat) (fp : Fp) (moduleIds : List Nat)
    (board_edge : Vec → Bool) (vias : List Via) (tht_pads : List Pad)
    (masks : List Dwg) (dwgs : List Dwg) (st : PosState)
    (t1 t2 t1' t2' : List (ℚ × ℚ)) :
    processFp cfg b fpIdx fp moduleIds board_edge vias tht_pads masks dwgs st t1 t2 =
    processFp cfg b fpIdx fp moduleIds board_edge vias tht_pads masks dwgs st t1' t2' := by
  unfold processFp
  simp only [placeField_grid cfg hm]

/-- Scenario A, executed: the single footprint's Reference is placed by
the grid strategy at the first candidate — the footprint center — and the
run reports 1 moved of 1 considered, for any trial oracle. -/
theorem scenarioA_run (oracle : Nat → Bool → List (ℚ × ℚ)) :
    Run cfgGrid boardA stA0 oracle (.ok (stAF, 1, 1)) := by
  unfold Run
  show run_rel cfgGrid boardA oracle [(0, fpA)] stA0 0 0 (.ok (stAF, 1, 1))
  obtain ⟨r, hr⟩ : ∃ r, MaxFpSize cfgGrid fpA r := ⟨_, rfl⟩
  have hrpos : 0 < r := maxFpSize_pos cfgGrid fpA r hr (by decide)
  have hkeep : keepR (fun p : Nat × Fp => p.2.bb) fpA.bb.GetCenter r (0, fpA) := by
    apply keepR_of_distSq_zero
    · decide
    · exact hrpos
  unfold run_rel
  rw [if_neg (by decide), if_neg (by decide)]
  refine ⟨r, [], [(0, fpA)], [], [], [], hr, rfl,
    Or.inl ⟨hkeep, [], rfl, rfl⟩, rfl, rfl, rfl, ?_⟩
  exact rfl

/-- With the grid strategy, the orchestrator relation is functional: two
derivations from the same state produce the same outcome, whatever the
stochastic oracles. -/
theorem run_rel_grid_unique (cfg : SilkscreenConfig) (b : Board)
    (hm : ¬(cfg.method = "anneal")) (o1 o2 : Nat → Bool → List (ℚ × ℚ)) :
    ∀ (l : List (Nat × Fp)) (st : PosState) (moved total : Nat)
      (out1 out2 : Except Unit (PosState × Nat × Nat)),
      run_rel cfg b o1 l st moved total out1 →
      run_rel cfg b o2 l st moved total out2 → out1 = out2 := by
  intro l
  induction l with
  | nil =>
      intro st moved total out1 out2 h1 h2
      unfold run_rel at h1 h2
      rw [h1, h2]
  | cons p rest ih =>
      obtain ⟨i, fp⟩ := p
      intro st moved total out1 out2 h1 h2
      unfold run_rel at h1 h2
      by_cases hc1 : (cfg.only_process_selection && !fp.selected) = true
      · rw [if_pos hc1] at h1 h2
        exact ih st moved total out1 out2 h1 h2
      · rw [if_neg hc1] at h1 h2
        by_cases hc2 : (!is_silkscreen_text fp.ref && !is_silkscreen_text fp.val) = true
        · rw [if_pos hc2] at h1 h2
          exact ih st moved total out1 out2 h1 h2
        · rw [if_neg hc2] at h1 h2
          obtain ⟨r1, v1, m1, p1, k1, d1, hr1, hv1, hm1, hp1, hk1, hd1, hmt1⟩ := h1
          obtain ⟨r2, v2, m2, p2, k2, d2, hr2, hv2, hm2, hp2, hk2, hd2, hmt2⟩ := h2
          have hre : r1 = r2 := by
            unfold MaxFpSize at hr1 hr2
            rw [hr1, hr2]
          subst hre
          have hve : v1 = v2 :=
            prunedRel_unique Via.bb fp.bb.GetCenter r1 _ _ _ hv1 hv2
          have hme : m1 = m2 :=
            prunedRel_unique (fun q => q.2.bb) fp.bb.GetCenter r1 _ _ _ hm1 hm2
          have hpe : p1 = p2 :=
            prunedRel_unique Pad.bb fp.bb.GetCenter r1 _ _ _ hp1 hp2
          have hke : k1 = k2 :=
            prunedRel_unique Dwg.bb fp.bb.GetCenter r1 _ _ _ hk1 hk2
          have hde : d1 = d2 :=
            prunedRel_unique Dwg.bb fp.bb.GetCenter r1 _ _ _ hd1 hd2
          subst hve
          subst hme
          subst hpe
          subst hke
          subst hde
          rw [processFp_grid_trials cfg hm b i fp (m1.map (fun q => q.1)) b.outline
            v1 p1 k1 d1 st (o1 i true) (o1 i false) (o2 i true) (o2 i false)] at hmt1
          cases hpf : processFp cfg b i fp (m1.map (fun q => q.1)) b.outline v1 p1
              k1 d1 st (o2 i true) (o2 i false) with
          | error e =>
              rw [hpf] at hmt1 hmt2
              exact hmt1.trans hmt2.symm
          | ok res =>
              obtain ⟨st', mm, tt⟩ := res
              rw [hpf] at hmt1 hmt2
              exact ih st' (moved + mm) (total + tt) out1 out2 hmt1 hmt2

theorem run_grid_unique (cfg : SilkscreenConfig) (b : Board) (st0 : PosState)
    (hm : ¬(cfg.method = "anneal")) (o1 o2 : Nat → Bool → List (ℚ × ℚ))
    (out1 out2 : Except Unit (PosState × Nat × Nat))
    (h1 : Run cfg b st0 o1 out1) (h2 : Run cfg b st0 o2 out2) : out1 = out2 :=
  run_rel_grid_unique cfg b hm o1 o2 b.fps.enum st0 0 0 out1 out2 h1 h2

/-- C9: the Grid Search strategy is deterministic — two executions on
identical inputs (same board state and configuration; any stochastic
oracles, which the grid strategy never consults) produce identical final
label positions and identical moved/total counts. -/
theorem C9_grid_deterministic (cfg : SilkscreenConfig) (b : Board) (st0 : PosState)
    (o1 o2 : Nat → Bool → List (ℚ × ℚ))
    (out1 out2 : Except Unit (PosState × Nat × Nat))
    (hm : ¬(cfg.method = "anneal")) (h1 : Run cfg b st0 o1 out1)
    (h2 : Run cfg b st0 o2 out2) : out1 = out2 :=
  run_grid_unique cfg b st0 hm o1 o2 out1 out2 h1 h2

theorem C9_grid_deterministic_witness :
    (Except.ok (stAF, 1, 1) : Except Unit (PosState × Nat × Nat)) = .ok (stAF, 1, 1) :=
  C9_grid_deterministic cfgGrid boardA stA0 oracleNil oracleOne _ _ (by decide)
    (scenarioA_run oracleNil) (scenarioA_run oracleOne)

/-- C3 counterexample: in Scenario A the grid search does succeed with
moved_count 1, but the accepted first candidate is the component's
bounding-box CENTER (0,0), not the position half the label height above
the component's top edge, which would be (0, -1500000). -/
theorem C3_scenarioA_counterexample :
    Run cfgGrid boardA stA0 oracleNil (.ok (stAF, 1, 1)) ∧
    getPos stAF 0 true = fpA.bb.GetCenter ∧
    fpA.bb.GetCenter ≠
      ⟨fpA.bb.GetCenter.x, fpA.bb.GetTop - Int.tdiv fpA.ref.size.y 2⟩ :=
  ⟨scenarioA_run oracleNil, by decide, by decide⟩

/-- C3 (amended): in Scenario A the Grid Search accepts its first
candidate — the offsets at ring i=0, j=0 are all (0,0), measured from the
component's bounding-box center, so the Reference lands at the center —
and the run reports moved_count 1. -/
theorem C3_scenarioA_amended :
    (∀ out, Run cfgGrid boardA stA0 oracleNil out → out = .ok (stAF, 1, 1)) ∧
    getPos stAF 0 true = fpA.bb.GetCenter ∧
    (brute_candidates cfgGrid.max_allowed_distance cfgGrid.step_size
      (toMM fpA.bb.GetWidth)).head? = some (0, 0) := by
  refine ⟨?_, by decide, by decide⟩
  intro out h
  exact run_grid_unique cfgGrid boardA stA0 (by decide) oracleNil oracleNil out
    (.ok (stAF, 1, 1)) h (scenarioA_run oracleNil)

theorem C3_scenarioA_amended_witness :
    (Except.ok (stAF, 1, 1) : Except Unit (PosState × Nat × Nat)) = .ok (stAF, 1, 1) :=
  C3_scenarioA_amended.1 (.ok (stAF, 1, 1)) (scenarioA_run oracleNil)

/-- The C1 pad lies beyond the orchestrator's pruning radius for `fpC1`:
its center is √72 mm from the footprint center, while radius + diagonal
is 7.5 mm + 0.5 mm = 8 mm and 8² = 64 < 72. -/
theorem padC1_not_keep (r : ℝ) (hr : MaxFpSize cfgGrid fpC1 r) :
    ¬ keepR Pad.bb fpC1.bb.GetCenter r padC1 := by
  intro hk
  unfold keepR at hk
  rw [show distSq fpC1.bb.GetCenter ((Pad.bb padC1).GetCenter) = 72000000000000
      from by decide,
    show diagSq (Pad.bb padC1) = 250000000000 from by decide] at hk
  unfold MaxFpSize at hr
  rw [show (is_silkscreen_text fpC1.ref && is_silkscreen_text fpC1.val) = false
      from by decide] at hr
  rw [show is_silkscreen_text fpC1.ref = true from by decide] at hr
  simp only [Bool.false_eq_true, if_false, if_true] at hr
  rw [show diagSq fpC1.bb = 0 from by decide,
    show diagSq (labelBB ⟨0, 0⟩ fpC1.ref) = 25000000000000 from by decide,
    show fromMM cfgGrid.max_allowed_distance = 5000000 from by decide] at hr
  rw [show ((0 : ℚ) : ℝ) = (0 : ℝ) from by norm_num, Real.sqrt_zero] at hr
  rw [sqrt_rat_of_sq 25000000000000 5000000 (by norm_num) (by norm_num)] at hr
  rw [sqrt_rat_of_sq 250000000000 500000 (by norm_num) (by norm_num)] at hk
  have h8 : (8000000 : ℝ) ≤ Real.sqrt ((72000000000000 : ℚ) : ℝ) := by
    rw [show ((72000000000000 : ℚ) : ℝ) = (72000000000000 : ℝ) from by norm_num]
    exact (Real.le_sqrt (by norm_num) (by norm_num)).mpr (by norm_num)
  rw [hr] at hk
  push_cast at hk h8
  linarith

/-- The C1 board, executed through the orchestrator: the pad is pruned
away, the grid search walks the rings out to (5 mm, 5 mm) — the only
candidate whose box fits the outline — and commits it. -/
theorem runC1 (oracle : Nat → Bool → List (ℚ × ℚ)) :
    Run cfgGrid boardC1 stC1 oracle (.ok (stC1F, 1, 1)) := by
  unfold Run
  show run_rel cfgGrid boardC1 oracle [(0, fpC1)] stC1 0 0 (.ok (stC1F, 1, 1))
  obtain ⟨r, hr⟩ : ∃ r, MaxFpSize cfgGrid fpC1 r := ⟨_, rfl⟩
  have hrpos : 0 < r := maxFpSize_pos cfgGrid fpC1 r hr (by decide)
  have hkeep : keepR (fun p : Nat × Fp => p.2.bb) fpC1.bb.GetCenter r (0, fpC1) := by
    apply keepR_of_distSq_zero
    · decide
    · exact hrpos
  have hpad : ¬ keepR Pad.bb fpC1.bb.GetCenter r padC1 := padC1_not_keep r hr
  unfold run_rel
  rw [if_neg (by decide), if_neg (by decide)]
  refine ⟨r, [], [(0, fpC1)], [], [], [], hr, rfl,
    Or.inl ⟨hkeep, [], rfl, rfl⟩, Or.inr ⟨hpad, rfl⟩, rfl, rfl, ?_⟩
  exact rfl

/-- C1 counterexample: the orchestrator (grid strategy) succeeds and
commits the Reference at (5 mm, 5 mm), yet at that position the Validity
Predicate evaluated against the full, unpruned obstacle lists fails — the
pruned-away through-hole pad intersects the label — so pre-filtering with
the Spatial Pruner at the orchestrator's radius changed the accept/reject
outcome. -/
theorem C1_pruning_counterexample :
    Run cfgGrid boardC1 stC1 oracleNil (.ok (stC1F, 1, 1)) ∧
    getPos stC1F 0 true = ⟨5000000, 5000000⟩ ∧
    is_position_valid cfgGrid boardC1 stC1F 0 true [0] boardC1.outline
      (vias_all cfgGrid boardC1) (tht_pads_all boardC1) (mask_all boardC1)
      (dwgs_all boardC1) = false :=
  ⟨runC1 oracleNil, by decide, by decide⟩

end AutoSilk
